import Mathlib

/-
Verification development for the nTLCanalyzer chromatogram analysis core.

Python floats are modelled as real numbers; numpy arrays as lists of reals.
Each definition is a shallow embedding of the correspondingly named function
of the repository (file given in its doc comment).  Python `while` loops are
modelled either by structural recursion on the decreasing index or by a fuel
parameter that call sites instantiate above the loop's iteration bound.
-/

/-- calculate_area from src/utils.py: `scipy.integrate.trapezoid(y, x)`,
the composite trapezoidal rule.  Empty or singleton inputs give 0. -/
noncomputable def calculate_area (y_values x_values : List ℝ) : ℝ :=
  ((x_values.zip x_values.tail).zip (y_values.zip y_values.tail)).foldl
    (fun acc p => acc + (p.1.2 - p.1.1) * (p.2.1 + p.2.2) / 2) 0

/-- Model of `numpy.linspace a b n`: `n` evenly spaced samples from `a` to `b`
inclusive.  For `n = 1` the division by `n - 1 = 0` is Lean's `x / 0 = 0`,
giving `[a]`, which agrees with numpy. -/
noncomputable def linspace (a b : ℝ) (n : ℕ) : List ℝ :=
  (List.range n).map (fun (i : ℕ) => a + (b - a) * (i : ℝ) / ((n : ℝ) - 1))

/-- Model of `numpy.interp x xp fp`: piecewise-linear interpolation with
constant extrapolation outside `[xp.head, xp.last]`. -/
noncomputable def interp (x : ℝ) : List ℝ → List ℝ → ℝ
  | x0 :: x1 :: xs, f0 :: f1 :: fs =>
    if x ≤ x0 then f0
    else if x ≤ x1 then f0 + (x - x0) * (f1 - f0) / (x1 - x0)
    else interp x (x1 :: xs) (f1 :: fs)
  | _ :: [], f0 :: _ => f0
  | _, _ => 0

/-- Model of `numpy.max` on a possibly empty list (callers check emptiness). -/
noncomputable def npMax : List ℝ → ℝ
  | [] => 0
  | h :: t => t.foldl max h

/-- Model of `numpy.min` on a possibly empty list (callers check emptiness). -/
noncomputable def npMin : List ℝ → ℝ
  | [] => 0
  | h :: t => t.foldl min h

/-- Helper for `numpy.argmin`: scan keeping the first index of the minimum
(`<` means a later value replaces the incumbent only when strictly smaller,
matching numpy's first-occurrence rule). -/
noncomputable def npArgminAux (best : ℝ) (bestIdx cur : ℕ) : List ℝ → ℕ
  | [] => bestIdx
  | v :: rest =>
    if v < best then npArgminAux v cur (cur + 1) rest
    else npArgminAux best bestIdx (cur + 1) rest

/-- Model of `numpy.argmin`; `none` models the ValueError raised on an
empty array. -/
noncomputable def npArgmin : List ℝ → Option ℕ
  | [] => none
  | h :: t => some (npArgminAux h 0 1 t)

namespace Integration

/-- Loop `while left_idx > 0 and y_data[left_idx] > threshold: left_idx -= 1`
from find_integration_bounds in src/integration.py. -/
noncomputable def walkThreshLeft (y : List ℝ) (thr : ℝ) : ℕ → ℕ
  | 0 => 0
  | i + 1 => if thr < y.getD (i + 1) 0 then walkThreshLeft y thr i else i + 1

/-- Loop `while left_idx > 0 and abs(y[left_idx] - y[left_idx-1]) < bound:
left_idx -= 1` from find_integration_bounds in src/integration.py. -/
noncomputable def walkSensLeft (y : List ℝ) (bound : ℝ) : ℕ → ℕ
  | 0 => 0
  | i + 1 =>
    if |y.getD (i + 1) 0 - y.getD i 0| < bound then walkSensLeft y bound i
    else i + 1

/-- Loop `while right_idx < len(y)-1 and y[right_idx] > threshold:
right_idx += 1` from find_integration_bounds in src/integration.py,
with an explicit fuel parameter (call sites pass `y.length`, which is more
than the maximal number of iterations `len(y) - 1 - i`). -/
noncomputable def walkThreshRight (y : List ℝ) (thr : ℝ) : ℕ → ℕ → ℕ
  | i, 0 => i
  | i, fuel + 1 =>
    if i < y.length - 1 ∧ thr < y.getD i 0 then walkThreshRight y thr (i + 1) fuel
    else i

/-- Loop `while right_idx < len(y)-1 and abs(y[right_idx] - y[right_idx+1]) <
bound: right_idx += 1` from find_integration_bounds in src/integration.py. -/
noncomputable def walkSensRight (y : List ℝ) (bound : ℝ) : ℕ → ℕ → ℕ
  | i, 0 => i
  | i, fuel + 1 =>
    if i < y.length - 1 ∧ |y.getD i 0 - y.getD (i + 1) 0| < bound then
      walkSensRight y bound (i + 1) fuel
    else i

/-- find_integration_bounds from src/integration.py.  `x_data` is unused by
the source as well.  Python's `max(0, left_idx - 3)` is the truncated natural
subtraction `left_idx - 3`. -/
noncomputable def find_integration_bounds (x_data y_data : List ℝ) (peak_idx : ℕ)
    (width_percent sensitivity : ℝ) : ℕ × ℕ :=
  let peak_height := y_data.getD peak_idx 0
  let threshold := peak_height * (1 - width_percent / 100)
  let left1 := walkThreshLeft y_data threshold peak_idx
  let left2 := walkSensLeft y_data (sensitivity * peak_height) left1
  let right1 := walkThreshRight y_data threshold peak_idx y_data.length
  let right2 := walkSensRight y_data (sensitivity * peak_height) right1 y_data.length
  (left2 - 3, min (y_data.length - 1) (right2 + 3))

/-- Body of manual_integration from src/integration.py after the two
`np.argmin` lines: sort the two indices (`swap if start_idx > end_idx`),
slice, build the linear baseline, and integrate.  `none` models the
IndexError raised when the chosen end index is outside `y_data`; the
slices themselves clamp like Python slices. -/
noncomputable def manualIntegrationCore (x_data y_data : List ℝ) (i j : ℕ) :
    Option (ℕ × ℕ × ℝ) :=
  let s := if j < i then j else i
  let e := if j < i then i else j
  if e < y_data.length then
    let x_range := (x_data.drop s).take (e + 1 - s)
    let y_range := (y_data.drop s).take (e + 1 - s)
    let baseline := linspace (y_data.getD s 0) (y_data.getD e 0) x_range.length
    some (s, e, calculate_area (List.zipWith (fun a b => a - b) y_range baseline) x_range)
  else none

/-- manual_integration from src/integration.py.  `none` also models the
numpy ValueError raised by `np.argmin` on an empty `x_data`. -/
noncomputable def manual_integration (x_data y_data : List ℝ) (start_x end_x : ℝ) :
    Option (ℕ × ℕ × ℝ) :=
  (npArgmin (x_data.map (fun v => |v - start_x|))).bind (fun i =>
    (npArgmin (x_data.map (fun v => |v - end_x|))).bind (fun j =>
      manualIntegrationCore x_data y_data i j))

end Integration

namespace PeakAnalysis

/-- Loop `while left_idx > 0 and intensities[left_idx] > threshold` from
auto_integrate_peaks in src/peak_analysis.py. -/
noncomputable def walkThreshLeft (y : List ℝ) (thr : ℝ) : ℕ → ℕ
  | 0 => 0
  | i + 1 => if thr < y.getD (i + 1) 0 then walkThreshLeft y thr i else i + 1

/-- Loop `while left_idx > 0 and abs(intensities[left_idx] -
intensities[left_idx-1]) < bound` from auto_integrate_peaks in
src/peak_analysis.py. -/
noncomputable def walkSensLeft (y : List ℝ) (bound : ℝ) : ℕ → ℕ
  | 0 => 0
  | i + 1 =>
    if |y.getD (i + 1) 0 - y.getD i 0| < bound then walkSensLeft y bound i
    else i + 1

/-- Loop `while right_idx < len(intensities)-1 and intensities[right_idx] >
threshold` from auto_integrate_peaks in src/peak_analysis.py. -/
noncomputable def walkThreshRight (y : List ℝ) (thr : ℝ) : ℕ → ℕ → ℕ
  | i, 0 => i
  | i, fuel + 1 =>
    if i < y.length - 1 ∧ thr < y.getD i 0 then walkThreshRight y thr (i + 1) fuel
    else i

/-- Loop `while right_idx < len(intensities)-1 and abs(intensities[right_idx]
- intensities[right_idx+1]) < bound` from auto_integrate_peaks in
src/peak_analysis.py. -/
noncomputable def walkSensRight (y : List ℝ) (bound : ℝ) : ℕ → ℕ → ℕ
  | i, 0 => i
  | i, fuel + 1 =>
    if i < y.length - 1 ∧ |y.getD i 0 - y.getD (i + 1) 0| < bound then
      walkSensRight y bound (i + 1) fuel
    else i

/-- auto_integrate_peaks from src/peak_analysis.py: the per-peak bound search
applied to each index of `peak_indices` in order.  `distances` is unused by
the source as well. -/
noncomputable def auto_integrate_peaks (distances intensities : List ℝ)
    (peak_indices : List ℕ) (width_percent sensitivity : ℝ) : List (ℕ × ℕ) :=
  peak_indices.map (fun peak_idx =>
    let peak_height := intensities.getD peak_idx 0
    let threshold := peak_height * (1 - width_percent / 100)
    let left1 := walkThreshLeft intensities threshold peak_idx
    let left2 := walkSensLeft intensities (sensitivity * peak_height) left1
    let right1 := walkThreshRight intensities threshold peak_idx intensities.length
    let right2 := walkSensRight intensities (sensitivity * peak_height) right1 intensities.length
    (left2 - 3, min (intensities.length - 1) (right2 + 3)))

end PeakAnalysis

lemma walkThreshLeft_eq (y : List ℝ) (thr : ℝ) :
    ∀ i, Integration.walkThreshLeft y thr i = PeakAnalysis.walkThreshLeft y thr i := by
  intro i
  induction i with
  | zero => rfl
  | succ n ih =>
    rw [Integration.walkThreshLeft, PeakAnalysis.walkThreshLeft, ih]

lemma walkSensLeft_eq (y : List ℝ) (bound : ℝ) :
    ∀ i, Integration.walkSensLeft y bound i = PeakAnalysis.walkSensLeft y bound i := by
  intro i
  induction i with
  | zero => rfl
  | succ n ih =>
    rw [Integration.walkSensLeft, PeakAnalysis.walkSensLeft, ih]

lemma walkThreshRight_eq (y : List ℝ) (thr : ℝ) :
    ∀ fuel i, Integration.walkThreshRight y thr i fuel = PeakAnalysis.walkThreshRight y thr i fuel := by
  intro fuel
  induction fuel with
  | zero => intro i; rfl
  | succ n ih =>
    intro i
    rw [Integration.walkThreshRight, PeakAnalysis.walkThreshRight, ih]

lemma walkSensRight_eq (y : List ℝ) (bound : ℝ) :
    ∀ fuel i, Integration.walkSensRight y bound i fuel = PeakAnalysis.walkSensRight y bound i fuel := by
  intro fuel
  induction fuel with
  | zero => intro i; rfl
  | succ n ih =>
    intro i
    rw [Integration.walkSensRight, PeakAnalysis.walkSensRight, ih]

/-- C10: for every data pair, valid peak index, width percentage and
sensitivity, the single-region search `find_integration_bounds`
(src/integration.py) returns exactly the pair that the per-peak body of
`auto_integrate_peaks` (src/peak_analysis.py) computes for the one-element
peak list `[p]`: the two independently written bound searches agree. -/
theorem c10_find_bounds_refines_auto_integrate (d y : List ℝ) (p : ℕ)
    (wp sens : ℝ) (hp : p < y.length) :
    PeakAnalysis.auto_integrate_peaks d y [p] wp sens =
      [Integration.find_integration_bounds d y p wp sens] := by
  simp only [PeakAnalysis.auto_integrate_peaks, Integration.find_integration_bounds,
    List.map_cons, List.map_nil, walkThreshLeft_eq, walkSensLeft_eq,
    walkThreshRight_eq, walkSensRight_eq]

/-- Witness for C10 at a concrete profile and peak index. -/
theorem c10_find_bounds_refines_auto_integrate_witness :
    1 < List.length [(0 : ℝ), 5, 0] ∧
      PeakAnalysis.auto_integrate_peaks [0, 1, 2] [(0 : ℝ), 5, 0] [1] 50 0 =
        [Integration.find_integration_bounds [0, 1, 2] [(0 : ℝ), 5, 0] 1 50 0] :=
  ⟨by norm_num,
   c10_find_bounds_refines_auto_integrate [0, 1, 2] [(0 : ℝ), 5, 0] 1 50 0 (by norm_num)⟩

/-- C9: manual_integration from src/integration.py is symmetric in its two
query positions: the two nearest indices are computed independently and then
sorted, so swapping `start_x` and `end_x` changes nothing. -/
theorem c9_manual_integration_swap (x_data y_data : List ℝ) (start_x end_x : ℝ) :
    Integration.manual_integration x_data y_data start_x end_x =
      Integration.manual_integration x_data y_data end_x start_x := by
  have hcore : ∀ i j, Integration.manualIntegrationCore x_data y_data i j =
      Integration.manualIntegrationCore x_data y_data j i := by
    intro i j
    unfold Integration.manualIntegrationCore
    have hs : (if j < i then j else i) = (if i < j then i else j) := by
      split_ifs <;> omega
    have he : (if j < i then i else j) = (if i < j then j else i) := by
      split_ifs <;> omega
    rw [hs, he]
  unfold Integration.manual_integration
  cases h1 : npArgmin (x_data.map (fun v => |v - start_x|)) with
  | none => cases h2 : npArgmin (x_data.map (fun v => |v - end_x|)) <;> simp
  | some i =>
    cases h2 : npArgmin (x_data.map (fun v => |v - end_x|)) with
    | none => simp
    | some j => simp [hcore i j]

namespace Fitting

/-- mecozzi_f from src/fitting.py: the Mecozzi asymmetric exponential peak
model, `height * exp((4/asym^2 - 1) * (log(1 + u) - u))` with
`u = 2*asym*(x-center)/(hwhm*(4-asym^2))`.  The Python `try/except` around
the numpy expressions never fires for array inputs, so the body is total. -/
noncomputable def mecozzi_f (x height center hwhm asym : ℝ) : ℝ :=
  height * Real.exp ((4 / asym ^ 2 - 1) *
    (Real.log (1 + 2 * asym * (x - center) / (hwhm * (4 - asym ^ 2))) -
      2 * asym * (x - center) / (hwhm * (4 - asym ^ 2))))

/-- mecozzi_a from src/fitting.py: mecozzi_f with the cutoff guard
`x >= center - hwhm*(4-asym^2)/(2*asym)`; below the cutoff the value is 0.
The numpy masking (`result[valid_indices] = ...`) acts pointwise, so the
scalar model is the per-sample behaviour. -/
noncomputable def mecozzi_a (x height center hwhm asym : ℝ) : ℝ :=
  if x ≥ center - hwhm * (4 - asym ^ 2) / (2 * asym) then
    mecozzi_f x height center hwhm asym
  else 0

/-- Cutoff position of the mecozzi_a guard in src/fitting.py. -/
noncomputable def mecozziCutoff (center hwhm asym : ℝ) : ℝ :=
  center - hwhm * (4 - asym ^ 2) / (2 * asym)

/-- Argument `u` appearing in mecozzi_f in src/fitting.py; the logarithm
there is taken of `1 + u`. -/
noncomputable def mecozziU (x center hwhm asym : ℝ) : ℝ :=
  2 * asym * (x - center) / (hwhm * (4 - asym ^ 2))

end Fitting

/-- Counterexample to C7: for asymmetry 3 (inside the fitting bounds
`asym ∈ [0.1, 10]`), hwhm 1, center 0 and x = 1, the cutoff guard of
mecozzi_a admits x (so mecozzi_f and its logarithm are evaluated) although
the logarithm argument `1 + u` equals -1/5 < 0: the guard does not prevent
logarithms of non-positive arguments for every parameter tuple. -/
theorem c7_cutoff_counterexample :
    (1 : ℝ) ≥ Fitting.mecozziCutoff 0 1 3 ∧
      Fitting.mecozzi_a 1 5 0 1 3 = Fitting.mecozzi_f 1 5 0 1 3 ∧
      1 + Fitting.mecozziU 1 0 1 3 < 0 := by
  refine ⟨by unfold Fitting.mecozziCutoff; norm_num, ?_, ?_⟩
  · rw [Fitting.mecozzi_a, if_pos (by norm_num)]
  · unfold Fitting.mecozziU; norm_num

/-- C7 (amended): for hwhm w > 0 and asymmetry 0 < a < 2, mecozzi_a returns
0 strictly below the cutoff `c - w*(4-a^2)/(2*a)` and
`h * exp((4/a^2 - 1) * (log(1+u) - u))` at and above it; strictly above the
cutoff the logarithm argument `1 + u` is positive, and at the cutoff itself
it is exactly 0 (so the guard admits one evaluation of `log 0`, and excludes
negative arguments only on 0 < a < 2). -/
theorem c7_cutoff_guard (h c w a x : ℝ) (hw : 0 < w) (ha : 0 < a) (ha2 : a < 2) :
    (x < Fitting.mecozziCutoff c w a → Fitting.mecozzi_a x h c w a = 0) ∧
    (Fitting.mecozziCutoff c w a ≤ x →
      Fitting.mecozzi_a x h c w a =
        h * Real.exp ((4 / a ^ 2 - 1) *
          (Real.log (1 + Fitting.mecozziU x c w a) - Fitting.mecozziU x c w a))) ∧
    (Fitting.mecozziCutoff c w a < x → 0 < 1 + Fitting.mecozziU x c w a) ∧
    (x = Fitting.mecozziCutoff c w a → 1 + Fitting.mecozziU x c w a = 0) := by
  have h4 : 0 < 4 - a ^ 2 := by
    nlinarith [mul_pos (show (0 : ℝ) < 2 - a by linarith) (show (0 : ℝ) < 2 + a by linarith)]
  have hD : 0 < w * (4 - a ^ 2) := mul_pos hw h4
  have haz : a ≠ 0 := ne_of_gt ha
  have hDz : w * (4 - a ^ 2) ≠ 0 := ne_of_gt hD
  refine ⟨?_, ?_, ?_, ?_⟩
  · intro hx
    rw [Fitting.mecozzi_a, if_neg]
    rw [Fitting.mecozziCutoff] at hx
    exact not_le.mpr hx
  · intro hx
    rw [Fitting.mecozzi_a, if_pos]
    · rfl
    · rw [Fitting.mecozziCutoff] at hx
      exact hx
  · intro hx
    rw [Fitting.mecozziCutoff] at hx
    rw [Fitting.mecozziU]
    have h2a : 0 < 2 * a := by linarith
    have hx2 : -(w * (4 - a ^ 2)) < (x - c) * (2 * a) := by
      rw [← div_lt_iff h2a]
      have hne : -(w * (4 - a ^ 2)) / (2 * a) = -(w * (4 - a ^ 2) / (2 * a)) := by
        ring
      rw [hne]
      linarith
    have h1 : -1 < 2 * a * (x - c) / (w * (4 - a ^ 2)) := by
      rw [lt_div_iff hD]
      linarith [hx2]
    linarith
  · intro hx
    rw [Fitting.mecozziCutoff] at hx
    rw [Fitting.mecozziU, hx]
    field_simp
    ring

/-- Witness for C7 (amended) at h = 1, c = 0, w = 1, a = 1, x = 0. -/
theorem c7_cutoff_guard_witness :
    ((0 : ℝ) < 1 ∧ (0 : ℝ) < 1 ∧ (1 : ℝ) < 2) ∧
    (((0 : ℝ) < Fitting.mecozziCutoff 0 1 1 → Fitting.mecozzi_a 0 1 0 1 1 = 0) ∧
     (Fitting.mecozziCutoff 0 1 1 ≤ (0 : ℝ) →
       Fitting.mecozzi_a 0 1 0 1 1 =
         1 * Real.exp ((4 / (1 : ℝ) ^ 2 - 1) *
           (Real.log (1 + Fitting.mecozziU 0 0 1 1) - Fitting.mecozziU 0 0 1 1))) ∧
     (Fitting.mecozziCutoff 0 1 1 < (0 : ℝ) → 0 < 1 + Fitting.mecozziU 0 0 1 1) ∧
     ((0 : ℝ) = Fitting.mecozziCutoff 0 1 1 → 1 + Fitting.mecozziU 0 0 1 1 = 0)) :=
  ⟨⟨by norm_num, by norm_num, by norm_num⟩,
   c7_cutoff_guard 1 0 1 1 0 (by norm_num) (by norm_num) (by norm_num)⟩

/-- Key analytic fact behind the C8 correction: `log (1+t) - log (1-t)`
exceeds `2*t` on `0 < t < 1`, so the Mecozzi exponent at `asym = 1` is
strictly larger on the right of the center than on the left. -/
lemma two_mul_lt_log_sub_log {t : ℝ} (ht0 : 0 < t) (ht1 : t < 1) :
    2 * t < Real.log (1 + t) - Real.log (1 - t) := by
  set f : ℝ → ℝ := fun s => Real.log (1 + s) - Real.log (1 - s) - 2 * s with hf
  have hmono : StrictMonoOn f (Set.Icc 0 t) := by
    apply strictMonoOn_of_deriv_pos (convex_Icc 0 t)
    · apply ContinuousOn.sub
      · apply ContinuousOn.sub
        · apply ContinuousOn.log
          · exact (continuous_const.add continuous_id).continuousOn
          · intro s hs
            rcases hs with ⟨hs0, _⟩
            positivity
        · apply ContinuousOn.log
          · exact (continuous_const.sub continuous_id).continuousOn
          · intro s hs
            rcases hs with ⟨_, hst⟩
            have : s < 1 := lt_of_le_of_lt hst ht1
            have : 0 < 1 - s := by linarith
            positivity
      · exact (continuous_const.mul continuous_id).continuousOn
    · intro s hs
      rw [interior_Icc] at hs
      rcases hs with ⟨hs0, hst⟩
      have hs1 : s < 1 := lt_trans hst ht1
      have h1p : (0 : ℝ) < 1 + s := by linarith
      have h1m : (0 : ℝ) < 1 - s := by linarith
      have d1 : HasDerivAt (fun u : ℝ => Real.log (1 + u)) (1 / (1 + s)) s := by
        have hb : HasDerivAt (fun u : ℝ => 1 + u) 1 s := by
          simpa using (hasDerivAt_id s).const_add 1
        simpa using hb.log (ne_of_gt h1p)
      have d2 : HasDerivAt (fun u : ℝ => Real.log (1 - u)) (-1 / (1 - s)) s := by
        have hb : HasDerivAt (fun u : ℝ => 1 - u) (-1) s := by
          simpa using (hasDerivAt_id s).neg.const_add 1
        simpa using hb.log (ne_of_gt h1m)
      have d3 : HasDerivAt (fun u : ℝ => 2 * u) 2 s := by
        simpa using (hasDerivAt_id s).const_mul 2
      have df : HasDerivAt f (1 / (1 + s) - -1 / (1 - s) - 2) s := (d1.sub d2).sub d3
      rw [df.deriv]
      have key : 1 / (1 + s) + 1 / (1 - s) = 2 / (1 - s ^ 2) := by
        have h1p' : (1 : ℝ) + s ≠ 0 := ne_of_gt h1p
        have h1m' : (1 : ℝ) - s ≠ 0 := ne_of_gt h1m
        have hsq' : (1 : ℝ) - s ^ 2 ≠ 0 := by nlinarith
        field_simp
        ring
      have hsub : 1 / (1 + s) - -1 / (1 - s) - 2 = 2 / (1 - s ^ 2) - 2 := by
        rw [← key]
        ring
      rw [hsub]
      have hsq : 0 < 1 - s ^ 2 := by nlinarith
      rw [sub_pos, lt_div_iff hsq]
      nlinarith
  have h0 : f 0 = 0 := by
    simp [hf]
  have := hmono (Set.left_mem_Icc.mpr (le_of_lt ht0)) (Set.right_mem_Icc.mpr (le_of_lt ht0)) ht0
  rw [h0] at this
  have hft : 0 < f t := this
  simp only [hf] at hft
  linarith

/-- Counterexample to C8: at asym = 1, height 1, center 0, hwhm 1 and offset
d = 3/4, the two sides of the Mecozzi curve differ by more than 1/10 of the
peak height (the exact difference is `(27/8)*exp(-3/2) - (1/8)*exp(3/2)`,
about 0.19), so the curve is not numerically symmetric about the center
within any small tolerance. -/
theorem c8_symmetry_counterexample :
    1 / 10 < Fitting.mecozzi_a (3 / 4) 1 0 1 1 - Fitting.mecozzi_a (-(3 / 4)) 1 0 1 1 := by
  have hA : Fitting.mecozzi_a (3 / 4) 1 0 1 1 = 27 / 8 / Real.exp (3 / 2) := by
    rw [Fitting.mecozzi_a,
      if_pos (by norm_num : ((3 : ℝ) / 4) ≥ 0 - 1 * (4 - 1 ^ 2) / (2 * 1)),
      Fitting.mecozzi_f]
    rw [show (2 : ℝ) * 1 * (3 / 4 - 0) / (1 * (4 - 1 ^ 2)) = 1 / 2 by norm_num,
      show (4 : ℝ) / 1 ^ 2 - 1 = 3 by norm_num,
      show (1 : ℝ) + 1 / 2 = 3 / 2 by norm_num, one_mul]
    rw [show (3 : ℝ) * (Real.log (3 / 2) - 1 / 2) = Real.log ((3 / 2) ^ 3) - 3 / 2 by
      rw [Real.log_pow]; push_cast; ring]
    rw [Real.exp_sub, Real.exp_log (by norm_num : (0 : ℝ) < (3 / 2) ^ 3)]
    norm_num
  have hB : Fitting.mecozzi_a (-(3 / 4)) 1 0 1 1 = Real.exp (3 / 2) / 8 := by
    rw [Fitting.mecozzi_a,
      if_pos (by norm_num : (-(3 / 4) : ℝ) ≥ 0 - 1 * (4 - 1 ^ 2) / (2 * 1)),
      Fitting.mecozzi_f]
    rw [show (2 : ℝ) * 1 * (-(3 / 4) - 0) / (1 * (4 - 1 ^ 2)) = -(1 / 2) by norm_num,
      show (4 : ℝ) / 1 ^ 2 - 1 = 3 by norm_num,
      show (1 : ℝ) + -(1 / 2) = 1 / 2 by norm_num, one_mul]
    rw [show (3 : ℝ) * (Real.log (1 / 2) - -(1 / 2)) = Real.log ((1 / 2) ^ 3) + 3 / 2 by
      rw [Real.log_pow]; push_cast; ring]
    rw [Real.exp_add, Real.exp_log (by norm_num : (0 : ℝ) < (1 / 2) ^ 3)]
    norm_num
    ring
  have hexp3 : Real.exp 3 < 20.09 := by
    have h1 : Real.exp 1 < 2.7182818286 := Real.exp_one_lt_d9
    have h2 : Real.exp 3 = Real.exp 1 * Real.exp 1 * Real.exp 1 := by
      rw [← Real.exp_add, ← Real.exp_add]; norm_num
    have hp : 0 < Real.exp 1 := Real.exp_pos 1
    rw [h2]
    nlinarith
  have hEpos : 0 < Real.exp (3 / 2) := Real.exp_pos _
  have hE2 : Real.exp (3 / 2) * Real.exp (3 / 2) = Real.exp 3 := by
    rw [← Real.exp_add]; norm_num
  have hE : Real.exp (3 / 2) < 4.5 := by nlinarith
  rw [hA, hB]
  have hform : 27 / 8 / Real.exp (3 / 2) - Real.exp (3 / 2) / 8 =
      (27 / 8 - Real.exp (3 / 2) * Real.exp (3 / 2) / 8) / Real.exp (3 / 2) := by
    field_simp
    ring
  rw [hform, lt_div_iff hEpos]
  rw [hE2]
  nlinarith

/-- C8 (amended): the Mecozzi curve with asym = 1.0 is NOT symmetric about
its center; asym = 1 is not the symmetric limit of the model.  Instead the
curve is strictly right-heavy: for every height h > 0, hwhm w > 0 and offset
0 < d < 3*w/2 (both sides inside the cutoff region), the value at center + d
strictly exceeds the value at center - d. -/
theorem c8_asym_one_right_heavy (h c w d : ℝ) (hh : 0 < h) (hw : 0 < w)
    (hd : 0 < d) (hd2 : d < 3 * w / 2) :
    Fitting.mecozzi_a (c - d) h c w 1 < Fitting.mecozzi_a (c + d) h c w 1 := by
  have hc32 : w * (4 - (1 : ℝ) ^ 2) / (2 * 1) = 3 * w / 2 := by ring
  have hguardP : c + d ≥ c - w * (4 - (1 : ℝ) ^ 2) / (2 * 1) := by
    rw [hc32]; linarith
  have hguardM : c - d ≥ c - w * (4 - (1 : ℝ) ^ 2) / (2 * 1) := by
    rw [hc32]; linarith
  rw [Fitting.mecozzi_a, if_pos hguardM, Fitting.mecozzi_a, if_pos hguardP,
    Fitting.mecozzi_f, Fitting.mecozzi_f]
  have hu1 : (2 : ℝ) * 1 * (c + d - c) / (w * (4 - 1 ^ 2)) = 2 * d / (3 * w) := by
    rw [show (2 : ℝ) * 1 * (c + d - c) = 2 * d by ring,
      show w * (4 - (1 : ℝ) ^ 2) = 3 * w by ring]
  have hu2 : (2 : ℝ) * 1 * (c - d - c) / (w * (4 - 1 ^ 2)) = -(2 * d / (3 * w)) := by
    rw [show (2 : ℝ) * 1 * (c - d - c) = -(2 * d) by ring,
      show w * (4 - (1 : ℝ) ^ 2) = 3 * w by ring, neg_div]
  rw [hu1, hu2]
  set t := 2 * d / (3 * w) with ht
  have ht0 : 0 < t := by rw [ht]; positivity
  have ht1 : t < 1 := by
    rw [ht, div_lt_one (by positivity)]
    linarith
  apply mul_lt_mul_of_pos_left _ hh
  apply Real.exp_lt_exp.mpr
  rw [show (4 : ℝ) / 1 ^ 2 - 1 = 3 by norm_num,
    show (1 : ℝ) + -t = 1 - t by ring]
  have hkey := two_mul_lt_log_sub_log ht0 ht1
  nlinarith

/-- Witness for C8 (amended) at h = 1, c = 0, w = 1, d = 1/2. -/
theorem c8_asym_one_right_heavy_witness :
    ((0 : ℝ) < 1 ∧ (0 : ℝ) < 1 ∧ (0 : ℝ) < 1 / 2 ∧ (1 : ℝ) / 2 < 3 * 1 / 2) ∧
      Fitting.mecozzi_a (0 - 1 / 2) 1 0 1 1 < Fitting.mecozzi_a (0 + 1 / 2) 1 0 1 1 :=
  ⟨⟨by norm_num, by norm_num, by norm_num, by norm_num⟩,
   c8_asym_one_right_heavy 1 0 1 (1 / 2) (by norm_num) (by norm_num) (by norm_num)
     (by norm_num)⟩

/-- Error raised by scipy.signal.savgol_filter for bad parameters; the spec
calls this condition a FilterError. -/
inductive FilterError where
  | polyOrderTooLarge : FilterError
  | windowTooLarge : FilterError
deriving DecidableEq, Repr

/-- Model of the library call `scipy.signal.savgol_filter(data, window, poly)`
(default mode interp): it raises iff `poly >= window` (polyorder must be less
than window_length) or `window > len(data)` (window_length must fit the data
in mode interp).  The smoothed values themselves are supplied by the
parameter `sg`, so every theorem below holds for every possible numeric
kernel; callers of this model always pass an odd window. -/
def scipySavgolFilter (sg : List ℝ → ℕ → ℕ → List ℝ) (data : List ℝ)
    (window poly : ℕ) : Except FilterError (List ℝ) :=
  if poly ≥ window then .error .polyOrderTooLarge
  else if data.length < window then .error .windowTooLarge
  else .ok (sg data window poly)

/-- apply_savitzky_golay from src/peak_analysis.py: force the window odd
(increment if even), apply savgol_filter only if `len(data) > window_size`,
otherwise return a copy of the data.  The scipy exception propagates. -/
def apply_savitzky_golay (sg : List ℝ → ℕ → ℕ → List ℝ) (data : List ℝ)
    (window_size poly_order : ℕ) : Except FilterError (List ℝ) :=
  let ws := if window_size % 2 = 0 then window_size + 1 else window_size
  if data.length > ws then scipySavgolFilter sg data ws poly_order
  else .ok data

/-- apply_gaussian_smooth from src/peak_analysis.py: gaussian_filter1d when
`sigma > 0`, otherwise a copy.  The smoothed values are supplied by the
parameter `gauss` (the scipy kernel), which never raises. -/
noncomputable def apply_gaussian_smooth (gauss : List ℝ → ℝ → List ℝ)
    (data : List ℝ) (sigma : ℝ) : List ℝ :=
  if sigma > 0 then gauss data sigma else data

/-- Result dictionary of fit_mecozzi_to_peak in src/fitting.py. -/
structure FitResult where
  peak_idx : ℕ
  params : ℝ × ℝ × ℝ × ℝ
  x_fit : List ℝ
  y_fit : List ℝ
  area : ℝ

/-- Per-line entry of `self.results_data` in src/chromatogram_tab.py. -/
structure LineData where
  distances : List ℝ
  raw_intensities : List ℝ
  filtered : List ℝ

/-- Analysis state of a ChromatogramTab (src/chromatogram_tab.py): the single
profile of the tab and the derived results.  `none` for a derived field
models the cleared dictionary `{}` (the Peaks / IntegrationRegions /
PeakFits being absent). -/
structure TabState where
  results_data : Option LineData
  peaks : Option (List ℕ)
  integrations : Option (List (ℕ × ℕ))
  mecozzi_fits : Option (List FitResult)

/-- ChromatogramTab.apply_filters from src/chromatogram_tab.py: read the
filter parameters, force the window odd, invert if requested, run the
Savitzky-Golay step inside try/except (on an exception the method shows a
dialog and returns, leaving the whole state unchanged), gaussian-smooth,
store the new filtered curve and clear peaks, integrations and fits. -/
noncomputable def applyFiltersTab (sg : List ℝ → ℕ → ℕ → List ℝ)
    (gauss : List ℝ → ℝ → List ℝ) (window_size_var poly_order_var : ℕ)
    (smooth_var : ℝ) (invert_var : Bool) (st : TabState) : TabState :=
  match st.results_data with
  | none => st
  | some data =>
    let ws := if window_size_var % 2 = 0 then window_size_var + 1 else window_size_var
    let inverted :=
      if invert_var then
        data.raw_intensities.map (fun v => npMax data.raw_intensities - v)
      else data.raw_intensities
    let sgStep : Except FilterError (List ℝ) :=
      if inverted.length > ws then apply_savitzky_golay sg inverted ws poly_order_var
      else .ok inverted
    match sgStep with
    | .error _ => st
    | .ok f1 =>
      let f2 := apply_gaussian_smooth gauss f1 smooth_var
      { results_data := some { data with filtered := f2 },
        peaks := none, integrations := none, mecozzi_fits := none }

lemma oddAdjust_idem (w : ℕ) :
    (if (if w % 2 = 0 then w + 1 else w) % 2 = 0 then
        (if w % 2 = 0 then w + 1 else w) + 1
      else if w % 2 = 0 then w + 1 else w) = if w % 2 = 0 then w + 1 else w := by
  rcases Nat.even_or_odd w with he | ho
  · have h0 : w % 2 = 0 := Nat.even_iff.mp he
    simp only [h0, if_true]
    have h1 : (w + 1) % 2 = 1 := by omega
    simp [h1]
  · have h0 : w % 2 = 1 := Nat.odd_iff.mp ho
    simp [h0]

lemma applyFiltersTab_unchanged_of_sg_fail (sg : List ℝ → ℕ → ℕ → List ℝ)
    (gauss : List ℝ → ℝ → List ℝ) (wv pv : ℕ) (sv : ℝ) (iv : Bool)
    (st : TabState) (data : LineData) (hdata : st.results_data = some data)
    (hfail : data.raw_intensities.length > (if wv % 2 = 0 then wv + 1 else wv) ∧
      pv ≥ (if wv % 2 = 0 then wv + 1 else wv)) :
    applyFiltersTab sg gauss wv pv sv iv st = st := by
  set ws := if wv % 2 = 0 then wv + 1 else wv with hws
  unfold applyFiltersTab
  rw [hdata]
  simp only [← hws]
  set inverted :=
    if iv = true then data.raw_intensities.map (fun v => npMax data.raw_intensities - v)
    else data.raw_intensities with hinv
  have hlen2 : inverted.length = data.raw_intensities.length := by
    rw [hinv]
    cases iv <;> simp
  rw [if_pos (by omega)]
  unfold apply_savitzky_golay
  simp only [← hws]
  rw [oddAdjust_idem wv]
  rw [if_pos (by omega)]
  unfold scipySavgolFilter
  rw [if_pos hfail.2]

/-- C3: whenever ChromatogramTab.apply_filters succeeds on a loaded profile,
the previously derived peaks, integration regions and Mecozzi fits are all
cleared (absent afterwards); and when the Savitzky-Golay step fails, the
method returns early and the whole state, derived results included, is
unchanged.  The SG step fails exactly when the data is longer than the
adjusted window and `poly_order >= window` (the scipy condition). -/
theorem c3_apply_filters_invalidation (sg : List ℝ → ℕ → ℕ → List ℝ)
    (gauss : List ℝ → ℝ → List ℝ) (wv pv : ℕ) (sv : ℝ) (iv : Bool)
    (st : TabState) (data : LineData) (hdata : st.results_data = some data) :
    (¬ (data.raw_intensities.length > (if wv % 2 = 0 then wv + 1 else wv) ∧
          pv ≥ (if wv % 2 = 0 then wv + 1 else wv)) →
        (applyFiltersTab sg gauss wv pv sv iv st).peaks = none ∧
        (applyFiltersTab sg gauss wv pv sv iv st).integrations = none ∧
        (applyFiltersTab sg gauss wv pv sv iv st).mecozzi_fits = none) ∧
    ((data.raw_intensities.length > (if wv % 2 = 0 then wv + 1 else wv) ∧
          pv ≥ (if wv % 2 = 0 then wv + 1 else wv)) →
        applyFiltersTab sg gauss wv pv sv iv st = st) := by
  set ws := if wv % 2 = 0 then wv + 1 else wv with hws
  have hlen : ∀ inverted : List ℝ,
      (if iv = true then
          data.raw_intensities.map (fun v => npMax data.raw_intensities - v)
        else data.raw_intensities) = inverted →
      inverted.length = data.raw_intensities.length := by
    intro inverted hinv
    rw [← hinv]
    cases iv <;> simp
  constructor
  · intro hok
    unfold applyFiltersTab
    rw [hdata]
    simp only [← hws]
    set inverted :=
      if iv = true then data.raw_intensities.map (fun v => npMax data.raw_intensities - v)
      else data.raw_intensities with hinv
    have hlen2 : inverted.length = data.raw_intensities.length := hlen inverted hinv.symm
    by_cases hcase : inverted.length > ws
    · rw [if_pos hcase]
      unfold apply_savitzky_golay
      simp only [← hws]
      rw [oddAdjust_idem wv]
      rw [if_pos hcase]
      unfold scipySavgolFilter
      have hp : ¬ pv ≥ ws := by
        intro hc
        exact hok ⟨by omega, hc⟩
      rw [if_neg hp, if_neg (by omega)]
      exact ⟨rfl, rfl, rfl⟩
    · rw [if_neg hcase]
      exact ⟨rfl, rfl, rfl⟩
  · intro hfail
    exact applyFiltersTab_unchanged_of_sg_fail sg gauss wv pv sv iv st data hdata hfail

/-- Witness for C3 at a concrete six-point profile: a successful run with
window 3, poly order 1 clears the derived results, and the failing run with
poly order 7 leaves the state untouched. -/
theorem c3_apply_filters_invalidation_witness :
    ({ results_data := some ⟨[0, 1, 2, 3, 4, 5], [0, 1, 2, 3, 4, 5], [0, 1, 2, 3, 4, 5]⟩,
       peaks := some [2], integrations := some [(1, 3)],
       mecozzi_fits := some [] } : TabState).results_data =
        some ⟨[0, 1, 2, 3, 4, 5], [0, 1, 2, 3, 4, 5], [0, 1, 2, 3, 4, 5]⟩ ∧
    ((¬ ((List.length [(0 : ℝ), 1, 2, 3, 4, 5] > (if 3 % 2 = 0 then 3 + 1 else 3)) ∧
          1 ≥ (if 3 % 2 = 0 then 3 + 1 else 3)) →
        (applyFiltersTab (fun d _ _ => d) (fun d _ => d) 3 1 0 false
          { results_data := some ⟨[0, 1, 2, 3, 4, 5], [0, 1, 2, 3, 4, 5], [0, 1, 2, 3, 4, 5]⟩,
            peaks := some [2], integrations := some [(1, 3)],
            mecozzi_fits := some [] }).peaks = none ∧
        (applyFiltersTab (fun d _ _ => d) (fun d _ => d) 3 1 0 false
          { results_data := some ⟨[0, 1, 2, 3, 4, 5], [0, 1, 2, 3, 4, 5], [0, 1, 2, 3, 4, 5]⟩,
            peaks := some [2], integrations := some [(1, 3)],
            mecozzi_fits := some [] }).integrations = none ∧
        (applyFiltersTab (fun d _ _ => d) (fun d _ => d) 3 1 0 false
          { results_data := some ⟨[0, 1, 2, 3, 4, 5], [0, 1, 2, 3, 4, 5], [0, 1, 2, 3, 4, 5]⟩,
            peaks := some [2], integrations := some [(1, 3)],
            mecozzi_fits := some [] }).mecozzi_fits = none) ∧
      ((List.length [(0 : ℝ), 1, 2, 3, 4, 5] > (if 3 % 2 = 0 then 3 + 1 else 3)) ∧
          1 ≥ (if 3 % 2 = 0 then 3 + 1 else 3) →
        applyFiltersTab (fun d _ _ => d) (fun d _ => d) 3 1 0 false
          { results_data := some ⟨[0, 1, 2, 3, 4, 5], [0, 1, 2, 3, 4, 5], [0, 1, 2, 3, 4, 5]⟩,
            peaks := some [2], integrations := some [(1, 3)],
            mecozzi_fits := some [] } =
          { results_data := some ⟨[0, 1, 2, 3, 4, 5], [0, 1, 2, 3, 4, 5], [0, 1, 2, 3, 4, 5]⟩,
            peaks := some [2], integrations := some [(1, 3)],
            mecozzi_fits := some [] })) :=
  ⟨rfl,
   c3_apply_filters_invalidation (fun d _ _ => d) (fun d _ => d) 3 1 0 false
     { results_data := some ⟨[0, 1, 2, 3, 4, 5], [0, 1, 2, 3, 4, 5], [0, 1, 2, 3, 4, 5]⟩,
       peaks := some [2], integrations := some [(1, 3)],
       mecozzi_fits := some [] }
     ⟨[0, 1, 2, 3, 4, 5], [0, 1, 2, 3, 4, 5], [0, 1, 2, 3, 4, 5]⟩ rfl⟩

/-- C4: in the Savitzky-Golay step, an even window is incremented to the
next odd value (the call behaves exactly like the call with window + 1);
the filter kernel runs only when the data is strictly longer than the
adjusted window (otherwise the data is returned unfiltered); with enough
data the step raises a FilterError precisely when `poly_order >= window`;
and when the step fails, ChromatogramTab.apply_filters returns early so the
previously stored filtered_intensities are unchanged. -/
theorem c4_savgol_parameter_contract (sg : List ℝ → ℕ → ℕ → List ℝ)
    (data : List ℝ) (w p : ℕ) :
    (w % 2 = 0 →
      apply_savitzky_golay sg data w p = apply_savitzky_golay sg data (w + 1) p) ∧
    (data.length ≤ (if w % 2 = 0 then w + 1 else w) →
      apply_savitzky_golay sg data w p = .ok data) ∧
    (data.length > (if w % 2 = 0 then w + 1 else w) →
      p < (if w % 2 = 0 then w + 1 else w) →
      apply_savitzky_golay sg data w p =
        .ok (sg data (if w % 2 = 0 then w + 1 else w) p)) ∧
    (data.length > (if w % 2 = 0 then w + 1 else w) →
      (apply_savitzky_golay sg data w p = .error .polyOrderTooLarge ↔
        p ≥ (if w % 2 = 0 then w + 1 else w))) ∧
    (∀ (gauss : List ℝ → ℝ → List ℝ) (sv : ℝ) (iv : Bool) (st : TabState)
        (d : LineData), st.results_data = some d →
      d.raw_intensities.length > (if w % 2 = 0 then w + 1 else w) →
      p ≥ (if w % 2 = 0 then w + 1 else w) →
      applyFiltersTab sg gauss w p sv iv st = st) := by
  set ws := if w % 2 = 0 then w + 1 else w with hws
  refine ⟨?_, ?_, ?_, ?_, ?_⟩
  · intro hev
    have h1 : (if w % 2 = 0 then w + 1 else w) = w + 1 := by simp [hev]
    have h2 : (if (w + 1) % 2 = 0 then w + 1 + 1 else w + 1) = w + 1 := by
      have hodd : (w + 1) % 2 ≠ 0 := by omega
      simp [hodd]
    unfold apply_savitzky_golay
    rw [h1, h2]
  · intro hle
    unfold apply_savitzky_golay
    rw [← hws, if_neg (by omega)]
  · intro hgt hplt
    unfold apply_savitzky_golay scipySavgolFilter
    rw [← hws, if_pos (by omega), if_neg (by omega), if_neg (by omega)]
  · intro hgt
    unfold apply_savitzky_golay scipySavgolFilter
    rw [← hws, if_pos (by omega)]
    constructor
    · intro heq
      by_contra hplt
      rw [if_neg hplt, if_neg (by omega)] at heq
      exact Except.noConfusion heq
    · intro hge
      rw [if_pos hge]
  · intro gauss sv iv st d hd hlen hge
    exact applyFiltersTab_unchanged_of_sg_fail sg gauss w p sv iv st d hd ⟨hlen, hge⟩

/-- Witness for C4 at window 4 (even), poly order 2, six data points. -/
theorem c4_savgol_parameter_contract_witness :
    ((4 % 2 = 0 →
      apply_savitzky_golay (fun d _ _ => d) [(0 : ℝ), 1, 2, 3, 4, 5] 4 2 =
        apply_savitzky_golay (fun d _ _ => d) [(0 : ℝ), 1, 2, 3, 4, 5] (4 + 1) 2) ∧
    (List.length [(0 : ℝ), 1, 2, 3, 4, 5] ≤ (if 4 % 2 = 0 then 4 + 1 else 4) →
      apply_savitzky_golay (fun d _ _ => d) [(0 : ℝ), 1, 2, 3, 4, 5] 4 2 =
        .ok [(0 : ℝ), 1, 2, 3, 4, 5]) ∧
    (List.length [(0 : ℝ), 1, 2, 3, 4, 5] > (if 4 % 2 = 0 then 4 + 1 else 4) →
      2 < (if 4 % 2 = 0 then 4 + 1 else 4) →
      apply_savitzky_golay (fun d _ _ => d) [(0 : ℝ), 1, 2, 3, 4, 5] 4 2 =
        .ok ((fun d _ _ => d) [(0 : ℝ), 1, 2, 3, 4, 5] (if 4 % 2 = 0 then 4 + 1 else 4) 2)) ∧
    (List.length [(0 : ℝ), 1, 2, 3, 4, 5] > (if 4 % 2 = 0 then 4 + 1 else 4) →
      (apply_savitzky_golay (fun d _ _ => d) [(0 : ℝ), 1, 2, 3, 4, 5] 4 2 =
          .error .polyOrderTooLarge ↔ 2 ≥ (if 4 % 2 = 0 then 4 + 1 else 4))) ∧
    (∀ (gauss : List ℝ → ℝ → List ℝ) (sv : ℝ) (iv : Bool) (st : TabState)
        (d : LineData), st.results_data = some d →
      d.raw_intensities.length > (if 4 % 2 = 0 then 4 + 1 else 4) →
      2 ≥ (if 4 % 2 = 0 then 4 + 1 else 4) →
      applyFiltersTab (fun d _ _ => d) gauss 4 2 sv iv st = st)) :=
  c4_savgol_parameter_contract (fun d _ _ => d) [(0 : ℝ), 1, 2, 3, 4, 5] 4 2

/-- Error signalled by fit_mecozzi_to_peak in src/fitting.py (the Python code
raises ValueError; the spec calls it FitError). -/
inductive FitError where
  | failed : FitError
deriving DecidableEq, Repr

/-- fit_mecozzi_to_peak from src/fitting.py.  The scipy curve_fit call is the
parameter `cf` (given the segments, the initial guess and the two bounds it
either returns optimal parameters or `none` for non-convergence), so every
theorem below holds for every behaviour of the optimizer.  The guard collects
the index and degeneracy errors of the source (IndexError on
`y_data[peak_idx]` / `x_data[peak_idx]`, ValueError of `np.min` on an empty
segment, IndexError on `x_segment[0]`), all of which surface as exceptions;
the Python slices `x_data[start:end]` are end-exclusive. -/
noncomputable def fit_mecozzi_to_peak
    (cf : List ℝ → List ℝ → (ℝ × ℝ × ℝ × ℝ) → (ℝ × ℝ × ℝ × ℝ) → (ℝ × ℝ × ℝ × ℝ) →
      Option (ℝ × ℝ × ℝ × ℝ))
    (x_data y_data : List ℝ) (peak_idx : ℕ) : Except FitError FitResult :=
  let window := 50
  let start_idx := peak_idx - window
  let end_idx := min (x_data.length - 1) (peak_idx + window)
  let x_segment := (x_data.drop start_idx).take (end_idx - start_idx)
  let y_segment := (y_data.drop start_idx).take (end_idx - start_idx)
  if peak_idx < y_data.length ∧ peak_idx < x_data.length ∧
      x_segment ≠ [] ∧ y_segment ≠ [] then
    let height := y_data.getD peak_idx 0 - npMin y_segment
    let center := x_data.getD peak_idx 0
    match cf x_segment y_segment (height, center, 20, 1)
        (0, x_segment.headD 0, 0, 1 / 10) (height * 2, x_segment.getLastD 0, 100, 10) with
    | some popt =>
      let x_fit := linspace (x_segment.headD 0) (x_segment.getLastD 0) 500
      let y_fit := x_fit.map (fun t =>
        Fitting.mecozzi_a t popt.1 popt.2.1 popt.2.2.1 popt.2.2.2)
      .ok { peak_idx := peak_idx, params := popt, x_fit := x_fit, y_fit := y_fit,
            area := calculate_area y_fit x_fit }
    | none => .error .failed
  else .error .failed

/-- Loop body of ChromatogramTab.fit_all_peaks in src/chromatogram_tab.py:
try one fit; on success append the result and bump the counter, on any
exception print and continue with the accumulator unchanged. -/
noncomputable def fitFoldStep
    (cf : List ℝ → List ℝ → (ℝ × ℝ × ℝ × ℝ) → (ℝ × ℝ × ℝ × ℝ) → (ℝ × ℝ × ℝ × ℝ) →
      Option (ℝ × ℝ × ℝ × ℝ))
    (x_data y_data : List ℝ) (acc : List FitResult × ℕ) (p : ℕ) :
    List FitResult × ℕ :=
  match fit_mecozzi_to_peak cf x_data y_data p with
  | .ok r => (acc.1 ++ [r], acc.2 + 1)
  | .error _ => acc

/-- ChromatogramTab.fit_all_peaks from src/chromatogram_tab.py: fit each
detected peak in order, collecting the successful fits and the success
count. -/
noncomputable def fit_all_peaks
    (cf : List ℝ → List ℝ → (ℝ × ℝ × ℝ × ℝ) → (ℝ × ℝ × ℝ × ℝ) → (ℝ × ℝ × ℝ × ℝ) →
      Option (ℝ × ℝ × ℝ × ℝ))
    (x_data y_data : List ℝ) (peak_indices : List ℕ) : List FitResult × ℕ :=
  peak_indices.foldl (fitFoldStep cf x_data y_data) ([], 0)

lemma fit_all_peaks_foldl_spec
    (cf : List ℝ → List ℝ → (ℝ × ℝ × ℝ × ℝ) → (ℝ × ℝ × ℝ × ℝ) → (ℝ × ℝ × ℝ × ℝ) →
      Option (ℝ × ℝ × ℝ × ℝ))
    (x_data y_data : List ℝ) :
    ∀ (l : List ℕ) (acc : List FitResult) (n : ℕ),
      l.foldl (fitFoldStep cf x_data y_data) (acc, n) =
        (acc ++ l.filterMap (fun p => (fit_mecozzi_to_peak cf x_data y_data p).toOption),
         n + (l.filterMap (fun p => (fit_mecozzi_to_peak cf x_data y_data p).toOption)).length) := by
  intro l
  induction l with
  | nil => intro acc n; simp
  | cons p t ih =>
    intro acc n
    rw [List.foldl_cons]
    cases hp : fit_mecozzi_to_peak cf x_data y_data p with
    | ok r =>
      have hstep : fitFoldStep cf x_data y_data (acc, n) p = (acc ++ [r], n + 1) := by
        unfold fitFoldStep
        rw [hp]
      rw [hstep, ih]
      have hfm : (p :: t).filterMap
          (fun q => (fit_mecozzi_to_peak cf x_data y_data q).toOption) =
          r :: t.filterMap (fun q => (fit_mecozzi_to_peak cf x_data y_data q).toOption) := by
        rw [List.filterMap_cons]
        rw [hp]
        rfl
      rw [hfm]
      rw [Prod.mk.injEq]
      refine ⟨by simp, ?_⟩
      simp only [List.length_cons]
      omega
    | error e =>
      have hstep : fitFoldStep cf x_data y_data (acc, n) p = (acc, n) := by
        unfold fitFoldStep
        rw [hp]
      rw [hstep, ih]
      have hfm : (p :: t).filterMap
          (fun q => (fit_mecozzi_to_peak cf x_data y_data q).toOption) =
          t.filterMap (fun q => (fit_mecozzi_to_peak cf x_data y_data q).toOption) := by
        rw [List.filterMap_cons]
        rw [hp]
        rfl
      rw [hfm]

/-- C6: fit_all_peaks processes each peak independently: the returned fits
are exactly the successful per-peak fits kept in peak-index order (the
filterMap of the input list), the reported count equals the number of
successes, and removing/inserting a failing peak anywhere in the list does
not change the outcome for the remaining peaks (one FitError does not abort
the batch). -/
theorem c6_fit_all_peaks_fault_tolerance
    (cf : List ℝ → List ℝ → (ℝ × ℝ × ℝ × ℝ) → (ℝ × ℝ × ℝ × ℝ) → (ℝ × ℝ × ℝ × ℝ) →
      Option (ℝ × ℝ × ℝ × ℝ))
    (x_data y_data : List ℝ) (peak_indices : List ℕ) :
    (fit_all_peaks cf x_data y_data peak_indices).1 =
      peak_indices.filterMap (fun p => (fit_mecozzi_to_peak cf x_data y_data p).toOption) ∧
    (fit_all_peaks cf x_data y_data peak_indices).2 =
      (peak_indices.filterMap
        (fun p => (fit_mecozzi_to_peak cf x_data y_data p).toOption)).length ∧
    (∀ (pre post : List ℕ) (bad : ℕ),
      fit_mecozzi_to_peak cf x_data y_data bad = .error .failed →
      fit_all_peaks cf x_data y_data (pre ++ bad :: post) =
        fit_all_peaks cf x_data y_data (pre ++ post)) := by
  refine ⟨?_, ?_, ?_⟩
  · unfold fit_all_peaks
    rw [fit_all_peaks_foldl_spec]
    simp
  · unfold fit_all_peaks
    rw [fit_all_peaks_foldl_spec]
    simp
  · intro pre post bad hbad
    unfold fit_all_peaks
    rw [fit_all_peaks_foldl_spec, fit_all_peaks_foldl_spec]
    have hfm : (pre ++ bad :: post).filterMap
        (fun p => (fit_mecozzi_to_peak cf x_data y_data p).toOption) =
        (pre ++ post).filterMap
          (fun p => (fit_mecozzi_to_peak cf x_data y_data p).toOption) := by
      rw [List.filterMap_append, List.filterMap_append, List.filterMap_cons, hbad]
      rfl
    rw [hfm]

/-- Witness for C6 with an always-failing optimizer, a three point profile,
and the out-of-bounds peak index 5 as the failing peak. -/
theorem c6_fit_all_peaks_fault_tolerance_witness :
    ((fit_all_peaks (fun _ _ _ _ _ => none) [(0 : ℝ), 1, 2] [(0 : ℝ), 1, 0] [1]).1 =
        List.filterMap
          (fun p => (fit_mecozzi_to_peak (fun _ _ _ _ _ => none)
            [(0 : ℝ), 1, 2] [(0 : ℝ), 1, 0] p).toOption) [1] ∧
      (fit_all_peaks (fun _ _ _ _ _ => none) [(0 : ℝ), 1, 2] [(0 : ℝ), 1, 0] [1]).2 =
        (List.filterMap
          (fun p => (fit_mecozzi_to_peak (fun _ _ _ _ _ => none)
            [(0 : ℝ), 1, 2] [(0 : ℝ), 1, 0] p).toOption) [1]).length ∧
      (∀ (pre post : List ℕ) (bad : ℕ),
        fit_mecozzi_to_peak (fun _ _ _ _ _ => none) [(0 : ℝ), 1, 2] [(0 : ℝ), 1, 0] bad =
          .error .failed →
        fit_all_peaks (fun _ _ _ _ _ => none) [(0 : ℝ), 1, 2] [(0 : ℝ), 1, 0]
            (pre ++ bad :: post) =
          fit_all_peaks (fun _ _ _ _ _ => none) [(0 : ℝ), 1, 2] [(0 : ℝ), 1, 0]
            (pre ++ post))) ∧
    fit_mecozzi_to_peak (fun _ _ _ _ _ => none) [(0 : ℝ), 1, 2] [(0 : ℝ), 1, 0] 5 =
      .error .failed :=
  ⟨c6_fit_all_peaks_fault_tolerance (fun _ _ _ _ _ => none)
      [(0 : ℝ), 1, 2] [(0 : ℝ), 1, 0] [1],
   by simp [fit_mecozzi_to_peak]⟩

/-- Raster image as seen by src/image_processing.py: `shape[0]` is the
height, `shape[1]` the width.  `pixel row col` is the stored intensity; for
a multi-channel raster it is the channel mean that line 158 of the source
computes (`np.mean(image[y, x, :])`), which is the only way sample_band
reads the raster. -/
structure NpImage where
  height : ℕ
  width : ℕ
  pixel : ℕ → ℕ → ℝ

/-- Model of Python's `int(round(v))` on a float: banker's rounding (round
half to even), then the integer conversion is exact. -/
noncomputable def pyround (x : ℝ) : ℤ :=
  if Int.fract x = 1 / 2 then (if 2 ∣ ⌊x⌋ then ⌊x⌋ else ⌊x⌋ + 1) else round x

/-- Offsets `range(-band_width//2, band_width//2 + 1)` from sample_band in
src/image_processing.py; `-band_width//2` is Python floor division, i.e.
`-((band_width+1)/2)`. -/
def bandOffsets (band_width : ℕ) : List ℤ :=
  (List.range ((band_width + 1) / 2 + band_width / 2 + 1)).map
    (fun k => (k : ℤ) - (((band_width + 1) / 2 : ℕ) : ℤ))

/-- Loop body of sample_band in src/image_processing.py for one consecutive
pair of points: when the segment length is 0 the pair is skipped entirely
(`none`: nothing is appended); otherwise the in-bounds pixels along the
normal are averaged (0 when none are in bounds). -/
noncomputable def bandValues (image : NpImage) (band_width : ℕ)
    (pq : (ℝ × ℝ) × (ℝ × ℝ)) : Option ℝ :=
  let dx := pq.2.1 - pq.1.1
  let dy := pq.2.2 - pq.1.2
  let len := Real.sqrt (dx * dx + dy * dy)
  if 0 < len then
    let nx := -dy / len
    let ny := dx / len
    let values := (bandOffsets band_width).filterMap (fun off =>
      let x_sample := pyround (pq.1.1 + (off : ℝ) * nx)
      let y_sample := pyround (pq.1.2 + (off : ℝ) * ny)
      if 0 ≤ x_sample ∧ x_sample < (image.width : ℤ) ∧
          0 ≤ y_sample ∧ y_sample < (image.height : ℤ) then
        some (image.pixel y_sample.toNat x_sample.toNat)
      else none)
    some (if values ≠ [] then
        values.foldl (fun a b => a + b) 0 / (values.length : ℝ)
      else 0)
  else none

/-- Intensity list collected by the main loop of sample_band in
src/image_processing.py before the final resampling. -/
noncomputable def sampleBandRaw (image : NpImage) (points : List (ℝ × ℝ))
    (band_width : ℕ) : List ℝ :=
  (points.zip points.tail).filterMap (bandValues image band_width)

/-- sample_band from src/image_processing.py: collect the per-pair band
averages, then resample the collected series to `len(points)` values by
index interpolation (`np.interp(np.linspace(0, len-1, len(points)),
np.arange(len), values)`), or return the empty array when nothing was
collected. -/
noncomputable def sample_band (image : NpImage) (points : List (ℝ × ℝ))
    (band_width : ℕ) : List ℝ :=
  let raw := sampleBandRaw image points band_width
  if raw ≠ [] then
    (linspace 0 ((raw.length : ℝ) - 1) points.length).map (fun idx =>
      interp idx ((List.range raw.length).map (fun k => (k : ℝ))) raw)
  else []

/-- Per-segment Euclidean lengths `np.sqrt(np.sum(np.diff(points)**2, 1))`
from extract_profile in src/image_processing.py. -/
noncomputable def segLengths (points : List (ℝ × ℝ)) : List ℝ :=
  (points.zip points.tail).map (fun pq =>
    Real.sqrt ((pq.2.1 - pq.1.1) ^ 2 + (pq.2.2 - pq.1.2) ^ 2))

/-- Cumulative distances `np.concatenate(([0], np.cumsum(lengths)))` from
extract_profile in src/image_processing.py. -/
noncomputable def cumulativeDist (points : List (ℝ × ℝ)) : List ℝ :=
  List.scanl (fun a b => a + b) 0 (segLengths points)

/-- Total arc length `cumulative_dist[-1]` from extract_profile in
src/image_processing.py. -/
noncomputable def totalDist (points : List (ℝ × ℝ)) : ℝ :=
  (cumulativeDist points).getLastD 0

/-- Sample count `min(1000, max(500, int(total_dist / 2)))` from
extract_profile in src/image_processing.py; Python `int()` truncates the
nonnegative float, i.e. takes the floor. -/
noncomputable def numSamples (points : List (ℝ × ℝ)) : ℕ :=
  min 1000 (max 500 (Int.toNat ⌊totalDist points / 2⌋))

/-- Resampled path points of extract_profile in src/image_processing.py:
x and y coordinates interpolated against the cumulative arc length at the
evenly spaced positions. -/
noncomputable def resampledPoints (points : List (ℝ × ℝ)) : List (ℝ × ℝ) :=
  (linspace 0 (totalDist points) (numSamples points)).map (fun d =>
    (interp d (cumulativeDist points) (points.map (fun p => p.1)),
     interp d (cumulativeDist points) (points.map (fun p => p.2))))

/-- extract_profile from src/image_processing.py: returns the pair
(distances, intensities).  The source contains no validation and no raise
statement: every path with at least one point flows through unconditionally
(the empty path raises a numpy AxisError at `np.sum(segments**2, axis=1)`
and is outside this model). -/
noncomputable def extract_profile (image : NpImage) (points : List (ℝ × ℝ))
    (band_width : ℕ) : List ℝ × List ℝ :=
  (linspace 0 (totalDist points) (numSamples points),
   sample_band image (resampledPoints points) band_width)

/-- Concrete 10 by 10 raster used for the concrete instances below; its
pixel values are irrelevant to the statements proved about it. -/
noncomputable def testImage : NpImage :=
  { height := 10, width := 10, pixel := fun _ _ => 0 }

lemma linspace_length (a b : ℝ) (n : ℕ) : (linspace a b n).length = n := by
  unfold linspace
  rw [List.length_map, List.length_range]

lemma linspace_mem_zero (n : ℕ) : ∀ x ∈ linspace 0 0 n, x = 0 := by
  intro x hx
  simp only [linspace, List.mem_map, List.mem_range] at hx
  obtain ⟨i, _, hi⟩ := hx
  rw [← hi]
  norm_num

lemma sample_band_const (image : NpImage) (points : List (ℝ × ℝ))
    (band_width : ℕ) (c : ℝ × ℝ) (hconst : ∀ p ∈ points, p = c) :
    sample_band image points band_width = [] := by
  unfold sample_band
  have hraw : sampleBandRaw image points band_width = [] := by
    unfold sampleBandRaw
    rw [List.filterMap_eq_nil]
    intro pq hpq
    have h1 : pq.1 ∈ points := (List.of_mem_zip hpq).1
    have h2 : pq.2 ∈ points := List.mem_of_mem_tail (List.of_mem_zip hpq).2
    have e1 : pq.1 = c := hconst _ h1
    have e2 : pq.2 = c := hconst _ h2
    have hdx : pq.2.1 - pq.1.1 = 0 := by rw [e1, e2]; ring
    have hdy : pq.2.2 - pq.1.2 = 0 := by rw [e1, e2]; ring
    unfold bandValues
    simp only [hdx, hdy]
    norm_num
  rw [hraw]
  simp

lemma extract_profile_zero_total (image : NpImage) (points : List (ℝ × ℝ))
    (band_width : ℕ) (hzero : totalDist points = 0) :
    (extract_profile image points band_width).1.length = 500 ∧
      (extract_profile image points band_width).2 = [] ∧
      ∀ d ∈ (extract_profile image points band_width).1, d = 0 := by
  have hN : numSamples points = 500 := by
    unfold numSamples
    rw [hzero]
    norm_num
  refine ⟨?_, ?_, ?_⟩
  · show (linspace 0 (totalDist points) (numSamples points)).length = 500
    rw [linspace_length, hN]
  · show sample_band image (resampledPoints points) band_width = []
    apply sample_band_const image _ band_width
      (interp 0 (cumulativeDist points) (points.map (fun p => p.1)),
       interp 0 (cumulativeDist points) (points.map (fun p => p.2)))
    intro p hp
    simp only [resampledPoints, List.mem_map] at hp
    obtain ⟨d, hd, hmap⟩ := hp
    rw [hzero] at hd
    have hd0 : d = 0 := linspace_mem_zero _ d hd
    rw [← hmap, hd0]
  · intro d hd
    have : d ∈ linspace 0 (totalDist points) (numSamples points) := hd
    rw [hzero] at this
    exact linspace_mem_zero _ d this

/-- Counterexample to C1: on the single-point path [(3, 4)] (fewer than 2
points, total arc length 0) extract_profile raises nothing - the source has
no raise statement and no ExtractionError exists anywhere in the repository
- and instead returns a partial, inconsistent profile: 500 distances (all
zero) together with an empty intensity array. -/
theorem c1_no_validation_counterexample :
    (extract_profile testImage [((3 : ℝ), (4 : ℝ))] 5).1.length = 500 ∧
      (extract_profile testImage [((3 : ℝ), (4 : ℝ))] 5).2 = [] := by
  have h := extract_profile_zero_total testImage [((3 : ℝ), (4 : ℝ))] 5 rfl
  exact ⟨h.1, h.2.1⟩

/-- C1 (amended): extract_profile performs no input validation.  For every
image and band width, on any nonempty path with total arc length 0 (a
single-point path included - the claimed ExtractionError does not exist in
the code) it raises nothing and returns a degenerate profile: exactly 500
distances, all equal to 0, and an empty intensity array, so the two arrays
do not even have equal lengths. -/
theorem c1_extract_profile_no_error (image : NpImage) (points : List (ℝ × ℝ))
    (band_width : ℕ) (hne : points ≠ []) (hzero : totalDist points = 0) :
    (extract_profile image points band_width).1.length = 500 ∧
      (extract_profile image points band_width).2 = [] ∧
      ∀ d ∈ (extract_profile image points band_width).1, d = 0 :=
  extract_profile_zero_total image points band_width hzero

/-- Witness for C1 (amended) on the one-point path [(3, 4)]. -/
theorem c1_extract_profile_no_error_witness :
    ([((3 : ℝ), (4 : ℝ))] ≠ [] ∧ totalDist [((3 : ℝ), (4 : ℝ))] = 0) ∧
      ((extract_profile testImage [((3 : ℝ), (4 : ℝ))] 2).1.length = 500 ∧
        (extract_profile testImage [((3 : ℝ), (4 : ℝ))] 2).2 = [] ∧
        ∀ d ∈ (extract_profile testImage [((3 : ℝ), (4 : ℝ))] 2).1, d = 0) :=
  ⟨⟨by simp, rfl⟩,
   c1_extract_profile_no_error testImage [((3 : ℝ), (4 : ℝ))] 2 (by simp) rfl⟩

lemma resampledPoints_length (points : List (ℝ × ℝ)) :
    (resampledPoints points).length = numSamples points := by
  unfold resampledPoints
  rw [List.length_map, linspace_length]

lemma linspace_get (a b : ℝ) (n i : ℕ) (h : i < (linspace a b n).length) :
    (linspace a b n).get ⟨i, h⟩ = a + (b - a) * (i : ℝ) / ((n : ℝ) - 1) := by
  simp [linspace]

lemma linspace_headD (a b : ℝ) (n : ℕ) (hn : 0 < n) (c : ℝ) :
    (linspace a b n).headD c = a := by
  obtain ⟨m, rfl⟩ : ∃ m, n = m + 1 := ⟨n - 1, by omega⟩
  unfold linspace
  rw [List.range_succ_eq_map]
  simp

lemma linspace_pairwise_lt (a b : ℝ) (n : ℕ) (hab : a < b) (hn : 2 ≤ n) :
    List.Pairwise (fun u v => u < v) (linspace a b n) := by
  unfold linspace
  rw [List.pairwise_map]
  apply (List.pairwise_lt_range n).imp
  intro i j hij
  have hd : (0 : ℝ) < (n : ℝ) - 1 := by
    have : (2 : ℝ) ≤ (n : ℝ) := by exact_mod_cast hn
    linarith
  apply add_lt_add_left
  rw [div_lt_div_iff hd hd]
  have hij' : (i : ℝ) < (j : ℝ) := by exact_mod_cast hij
  nlinarith [mul_pos (mul_pos (show (0 : ℝ) < b - a by linarith)
    (show (0 : ℝ) < (j : ℝ) - (i : ℝ) by linarith)) hd]

lemma linspace_getElem (a b : ℝ) (n i : ℕ) (h : i < (linspace a b n).length) :
    (linspace a b n)[i] = a + (b - a) * (i : ℝ) / ((n : ℝ) - 1) := by
  simp [linspace]

lemma linspace_getElem_some (a b : ℝ) (n i : ℕ) (h : i < n) :
    (linspace a b n)[i]? = some (a + (b - a) * (i : ℝ) / ((n : ℝ) - 1)) := by
  have hl : i < (linspace a b n).length := by
    rw [linspace_length]
    exact h
  rw [List.getElem?_eq_getElem hl, linspace_getElem]

lemma interp_pair (x x0 x1 f0 f1 : ℝ) :
    interp x [x0, x1] [f0, f1] =
      if x ≤ x0 then f0
      else if x ≤ x1 then f0 + (x - x0) * (f1 - f0) / (x1 - x0)
      else f1 := by
  simp only [interp]

lemma bandValues_ne_none (image : NpImage) (band_width : ℕ)
    (pq : (ℝ × ℝ) × (ℝ × ℝ)) (hne : pq.1 ≠ pq.2) :
    bandValues image band_width pq ≠ none := by
  have hor : pq.2.1 - pq.1.1 ≠ 0 ∨ pq.2.2 - pq.1.2 ≠ 0 := by
    by_contra hcon
    push_neg at hcon
    obtain ⟨h1, h2⟩ := hcon
    exact hne (Prod.ext (by linarith [sub_eq_zero.mp h1]) (by linarith [sub_eq_zero.mp h2]))
  have hpos : 0 < (pq.2.1 - pq.1.1) * (pq.2.1 - pq.1.1) +
      (pq.2.2 - pq.1.2) * (pq.2.2 - pq.1.2) := by
    rcases hor with h | h
    · nlinarith [mul_self_pos.mpr h, mul_self_nonneg (pq.2.2 - pq.1.2)]
    · nlinarith [mul_self_pos.mpr h, mul_self_nonneg (pq.2.1 - pq.1.1)]
  have hsq : 0 < Real.sqrt ((pq.2.1 - pq.1.1) * (pq.2.1 - pq.1.1) +
      (pq.2.2 - pq.1.2) * (pq.2.2 - pq.1.2)) := Real.sqrt_pos.mpr hpos
  simp only [bandValues]
  rw [if_pos hsq]
  simp

lemma sampleBandRaw_ne_nil (image : NpImage) (band_width : ℕ)
    (points : List (ℝ × ℝ)) (i : ℕ) (hi : i + 1 < points.length)
    (hne : points[i]? ≠ points[i + 1]?) :
    sampleBandRaw image points band_width ≠ [] := by
  intro hnil
  unfold sampleBandRaw at hnil
  rw [List.filterMap_eq_nil] at hnil
  have hzi : i < (points.zip points.tail).length := by
    rw [List.length_zip, List.length_tail]
    omega
  have hval := hnil _ (List.getElem_mem hzi)
  rw [List.getElem_zip, List.getElem_tail] at hval
  have hii : i < points.length := by omega
  have e1 : points[i]? = some points[i] := List.getElem?_eq_getElem hii
  have e2 : points[i + 1]? = some points[i + 1] := List.getElem?_eq_getElem hi
  have hne2 : points[i] ≠ points[i + 1] := by
    intro h
    apply hne
    rw [e1, e2, h]
  exact bandValues_ne_none image band_width _ hne2 hval

lemma sample_band_length (image : NpImage) (points : List (ℝ × ℝ))
    (band_width : ℕ) (hraw : sampleBandRaw image points band_width ≠ []) :
    (sample_band image points band_width).length = points.length := by
  simp only [sample_band]
  rw [if_pos hraw, List.length_map, linspace_length]

/-- C2 (amended): for every image, path of at least 2 points with total arc
length L > 0, and odd band width, provided some consecutive pair of the
resampled path points is distinct (a path that retraces itself exactly in
step with the resampling makes sample_band return empty), extract_profile
returns distances and intensities of equal length
N = min(1000, max(500, floor(L/2))) - the source truncates `int(L/2)`, it
does not round - with distances strictly increasing from distances[0] = 0. -/
theorem c2_extract_profile_length_invariants (image : NpImage)
    (points : List (ℝ × ℝ)) (band_width : ℕ) (hlen : 2 ≤ points.length)
    (hbw : band_width % 2 = 1) (hpos : 0 < totalDist points)
    (i : ℕ) (hi : i + 1 < (resampledPoints points).length)
    (hsep : (resampledPoints points)[i]? ≠ (resampledPoints points)[i + 1]?) :
    (extract_profile image points band_width).1.length =
      min 1000 (max 500 (Int.toNat ⌊totalDist points / 2⌋)) ∧
    (extract_profile image points band_width).2.length =
      min 1000 (max 500 (Int.toNat ⌊totalDist points / 2⌋)) ∧
    List.Pairwise (fun u v => u < v) (extract_profile image points band_width).1 ∧
    (extract_profile image points band_width).1.headD 1 = 0 := by
  have hN2 : 2 ≤ numSamples points := by
    unfold numSamples
    omega
  have h1 : (extract_profile image points band_width).1 =
      linspace 0 (totalDist points) (numSamples points) := rfl
  have h2 : (extract_profile image points band_width).2 =
      sample_band image (resampledPoints points) band_width := rfl
  refine ⟨?_, ?_, ?_, ?_⟩
  · rw [h1, linspace_length]
    rfl
  · rw [h2, sample_band_length image (resampledPoints points) band_width
      (sampleBandRaw_ne_nil image band_width (resampledPoints points) i hi hsep),
      resampledPoints_length]
    rfl
  · rw [h1]
    exact linspace_pairwise_lt 0 _ _ hpos hN2
  · rw [h1]
    exact linspace_headD 0 _ _ (by omega) 1

/-- Counterexample to C2: the source computes the sample count with
`int(total_dist / 2)` (truncation), not `round`.  On the straight path from
(0,0) to (1003,0) the arc length is 1003, so extract_profile produces 501
distances, while the claimed N = clamp(round(L/2)) would be 502. -/
theorem c2_sample_count_counterexample :
    (extract_profile testImage [((0 : ℝ), (0 : ℝ)), ((1003 : ℝ), (0 : ℝ))] 5).1.length = 501 ∧
      min 1000 (max 500 (Int.toNat (round
        (totalDist [((0 : ℝ), (0 : ℝ)), ((1003 : ℝ), (0 : ℝ))] / 2)))) = 502 := by
  have hs : Real.sqrt (((1003 : ℝ) - 0) ^ 2 + ((0 : ℝ) - 0) ^ 2) = 1003 := by
    rw [show ((1003 : ℝ) - 0) ^ 2 + ((0 : ℝ) - 0) ^ 2 = 1003 ^ 2 by norm_num]
    exact Real.sqrt_sq (by norm_num)
  have htot : totalDist [((0 : ℝ), (0 : ℝ)), ((1003 : ℝ), (0 : ℝ))] = 1003 := by
    rw [show totalDist [((0 : ℝ), (0 : ℝ)), ((1003 : ℝ), (0 : ℝ))] =
      0 + Real.sqrt (((1003 : ℝ) - 0) ^ 2 + ((0 : ℝ) - 0) ^ 2) from rfl, hs]
    norm_num
  constructor
  · have h1 : (extract_profile testImage [((0 : ℝ), (0 : ℝ)), ((1003 : ℝ), (0 : ℝ))] 5).1 =
        linspace 0 (totalDist [((0 : ℝ), (0 : ℝ)), ((1003 : ℝ), (0 : ℝ))])
          (numSamples [((0 : ℝ), (0 : ℝ)), ((1003 : ℝ), (0 : ℝ))]) := rfl
    rw [h1, linspace_length]
    unfold numSamples
    rw [htot]
    have hfl : ⌊(1003 : ℝ) / 2⌋ = 501 := by
      rw [Int.floor_eq_iff]
      norm_num
    rw [hfl]
    rfl
  · rw [htot]
    have hr : round ((1003 : ℝ) / 2) = 502 := by
      rw [round_eq]
      rw [show (1003 : ℝ) / 2 + 1 / 2 = ((502 : ℤ) : ℝ) by norm_num]
      rw [Int.floor_intCast]
    rw [hr]
    rfl

/-- Witness for C2 (amended) on the straight path from (0,0) to (1000,0)
with band width 5: the total arc length is 1000, the sample count is 500,
and the first two resampled points (0,0) and (1000/499, 0) are distinct. -/
theorem c2_extract_profile_length_invariants_witness :
    (2 ≤ List.length [((0 : ℝ), (0 : ℝ)), ((1000 : ℝ), (0 : ℝ))] ∧ 5 % 2 = 1 ∧
      0 < totalDist [((0 : ℝ), (0 : ℝ)), ((1000 : ℝ), (0 : ℝ))] ∧
      0 + 1 < (resampledPoints [((0 : ℝ), (0 : ℝ)), ((1000 : ℝ), (0 : ℝ))]).length) ∧
    ((extract_profile testImage [((0 : ℝ), (0 : ℝ)), ((1000 : ℝ), (0 : ℝ))] 5).1.length =
        min 1000 (max 500 (Int.toNat
          ⌊totalDist [((0 : ℝ), (0 : ℝ)), ((1000 : ℝ), (0 : ℝ))] / 2⌋)) ∧
      (extract_profile testImage [((0 : ℝ), (0 : ℝ)), ((1000 : ℝ), (0 : ℝ))] 5).2.length =
        min 1000 (max 500 (Int.toNat
          ⌊totalDist [((0 : ℝ), (0 : ℝ)), ((1000 : ℝ), (0 : ℝ))] / 2⌋)) ∧
      List.Pairwise (fun u v => u < v)
        (extract_profile testImage [((0 : ℝ), (0 : ℝ)), ((1000 : ℝ), (0 : ℝ))] 5).1 ∧
      (extract_profile testImage [((0 : ℝ), (0 : ℝ)), ((1000 : ℝ), (0 : ℝ))] 5).1.headD 1 = 0) := by
  have hs : Real.sqrt (((1000 : ℝ) - 0) ^ 2 + ((0 : ℝ) - 0) ^ 2) = 1000 := by
    rw [show ((1000 : ℝ) - 0) ^ 2 + ((0 : ℝ) - 0) ^ 2 = 1000 ^ 2 by norm_num]
    exact Real.sqrt_sq (by norm_num)
  have htot : totalDist [((0 : ℝ), (0 : ℝ)), ((1000 : ℝ), (0 : ℝ))] = 1000 := by
    rw [show totalDist [((0 : ℝ), (0 : ℝ)), ((1000 : ℝ), (0 : ℝ))] =
      0 + Real.sqrt (((1000 : ℝ) - 0) ^ 2 + ((0 : ℝ) - 0) ^ 2) from rfl, hs]
    norm_num
  have hN : numSamples [((0 : ℝ), (0 : ℝ)), ((1000 : ℝ), (0 : ℝ))] = 500 := by
    unfold numSamples
    rw [htot]
    rw [show (1000 : ℝ) / 2 = ((500 : ℤ) : ℝ) by norm_num, Int.floor_intCast]
    rfl
  have hRTlen : (resampledPoints [((0 : ℝ), (0 : ℝ)), ((1000 : ℝ), (0 : ℝ))]).length = 500 := by
    rw [resampledPoints_length, hN]
  have hi : 0 + 1 < (resampledPoints [((0 : ℝ), (0 : ℝ)), ((1000 : ℝ), (0 : ℝ))]).length := by
    omega
  have hcum : cumulativeDist [((0 : ℝ), (0 : ℝ)), ((1000 : ℝ), (0 : ℝ))] = [0, 1000] := by
    rw [show cumulativeDist [((0 : ℝ), (0 : ℝ)), ((1000 : ℝ), (0 : ℝ))] =
      [0, 0 + Real.sqrt (((1000 : ℝ) - 0) ^ 2 + ((0 : ℝ) - 0) ^ 2)] from rfl, hs]
    norm_num
  have hsep : (resampledPoints [((0 : ℝ), (0 : ℝ)), ((1000 : ℝ), (0 : ℝ))])[0]? ≠
      (resampledPoints [((0 : ℝ), (0 : ℝ)), ((1000 : ℝ), (0 : ℝ))])[0 + 1]? := by
    unfold resampledPoints
    rw [List.getElem?_map, List.getElem?_map]
    rw [linspace_getElem_some 0 _ _ 0 (by rw [hN]; norm_num),
      linspace_getElem_some 0 _ _ (0 + 1) (by rw [hN]; norm_num)]
    rw [htot, hN, hcum]
    rw [show ([((0 : ℝ), (0 : ℝ)), ((1000 : ℝ), (0 : ℝ))].map (fun p => p.1)) = [0, 1000]
      from rfl]
    simp only [Option.map_some']
    intro heq
    have hfst := congrArg Prod.fst (Option.some.inj heq)
    simp only [] at hfst
    rw [show (0 : ℝ) + (1000 - 0) * ((0 : ℕ) : ℝ) / ((500 : ℕ) - 1 : ℝ) = 0 by norm_num] at hfst
    rw [show (0 : ℝ) + (1000 - 0) * ((0 + 1 : ℕ) : ℝ) / ((500 : ℕ) - 1 : ℝ) = 1000 / 499 by
      norm_num] at hfst
    rw [interp_pair, interp_pair] at hfst
    rw [if_pos (le_refl (0 : ℝ))] at hfst
    rw [if_neg (by norm_num : ¬ (1000 : ℝ) / 499 ≤ 0),
      if_pos (by norm_num : (1000 : ℝ) / 499 ≤ 1000)] at hfst
    norm_num at hfst
  exact ⟨⟨by norm_num, by norm_num, by rw [htot]; norm_num, hi⟩,
    c2_extract_profile_length_invariants testImage
      [((0 : ℝ), (0 : ℝ)), ((1000 : ℝ), (0 : ℝ))] 5 (by norm_num) (by norm_num)
      (by rw [htot]; norm_num) 0 hi hsep⟩

namespace FindPeaks

/-- Inner scan of scipy.signal's `_local_maxima_1d` (the peak finder called
by `find_peaks`, which src/peak_analysis.py detect_peaks invokes):
`i_ahead = i+1; while i_ahead < i_max and x[i_ahead] == x[i]: i_ahead += 1`.
Fuel-driven; call sites pass more fuel than the remaining scan length. -/
noncomputable def lmAhead (x : List ℝ) (imax : ℕ) (v : ℝ) : ℕ → ℕ → ℕ
  | j, 0 => j
  | j, fuel + 1 =>
    if j < imax ∧ x.getD j 0 = v then lmAhead x imax v (j + 1) fuel else j

/-- Main loop of scipy's `_local_maxima_1d`: scan `i` from 1 to
`i_max = len(x) - 1`; on a rising edge find the plateau end; if the plateau
falls afterwards record the plateau midpoint `(left + right) // 2` and jump
past the plateau. -/
noncomputable def lmLoop (x : List ℝ) (imax : ℕ) : ℕ → ℕ → List ℕ
  | _, 0 => []
  | i, fuel + 1 =>
    if i < imax then
      if x.getD (i - 1) 0 < x.getD i 0 then
        let ahead := lmAhead x imax (x.getD i 0) (i + 1) x.length
        if x.getD ahead 0 < x.getD i 0 then
          ((i + (ahead - 1)) / 2) :: lmLoop x imax (ahead + 1) fuel
        else lmLoop x imax (i + 1) fuel
      else lmLoop x imax (i + 1) fuel
    else []

/-- Local maxima (plateau midpoints) of scipy's `_local_maxima_1d`. -/
noncomputable def localMaxima (x : List ℝ) : List ℕ :=
  lmLoop x (x.length - 1) 1 x.length

lemma lmAhead_lb (x : List ℝ) (imax : ℕ) (v : ℝ) :
    ∀ fuel j, j ≤ lmAhead x imax v j fuel := by
  intro fuel
  induction fuel with
  | zero => intro j; rw [lmAhead]
  | succ n ih =>
    intro j
    rw [lmAhead]
    split
    · exact le_trans (by omega) (ih (j + 1))
    · exact le_refl j

lemma lmLoop_lb (x : List ℝ) (imax : ℕ) :
    ∀ fuel i, ∀ m ∈ lmLoop x imax i fuel, i ≤ m := by
  intro fuel
  induction fuel with
  | zero => intro i m hm; rw [lmLoop] at hm; exact absurd hm (List.not_mem_nil m)
  | succ n ih =>
    intro i m hm
    rw [lmLoop] at hm
    by_cases h1 : i < imax
    · rw [if_pos h1] at hm
      by_cases h2 : x.getD (i - 1) 0 < x.getD i 0
      · rw [if_pos h2] at hm
        by_cases h3 : x.getD (lmAhead x imax (x.getD i 0) (i + 1) x.length) 0 < x.getD i 0
        · rw [if_pos h3] at hm
          have hahead : i + 1 ≤ lmAhead x imax (x.getD i 0) (i + 1) x.length :=
            lmAhead_lb x imax _ _ _
          rcases List.mem_cons.mp hm with he | ht
          · omega
          · have := ih _ m ht
            omega
        · rw [if_neg h3] at hm
          have := ih _ m hm
          omega
      · rw [if_neg h2] at hm
        have := ih _ m hm
        omega
    · rw [if_neg h1] at hm
      exact absurd hm (List.not_mem_nil m)

lemma lmLoop_pairwise (x : List ℝ) (imax : ℕ) :
    ∀ fuel i, List.Pairwise (fun a b => a < b) (lmLoop x imax i fuel) := by
  intro fuel
  induction fuel with
  | zero => intro i; rw [lmLoop]; exact List.Pairwise.nil
  | succ n ih =>
    intro i
    rw [lmLoop]
    by_cases h1 : i < imax
    · rw [if_pos h1]
      by_cases h2 : x.getD (i - 1) 0 < x.getD i 0
      · rw [if_pos h2]
        by_cases h3 : x.getD (lmAhead x imax (x.getD i 0) (i + 1) x.length) 0 < x.getD i 0
        · rw [if_pos h3]
          refine List.Pairwise.cons ?_ (ih _)
          intro m hm
          have hahead : i + 1 ≤ lmAhead x imax (x.getD i 0) (i + 1) x.length :=
            lmAhead_lb x imax _ _ _
          have hmlb := lmLoop_lb x imax n _ m hm
          omega
        · rw [if_neg h3]
          exact ih _
      · rw [if_neg h2]
        exact ih _
    · rw [if_neg h1]
      exact List.Pairwise.nil

lemma localMaxima_pairwise (x : List ℝ) :
    List.Pairwise (fun a b => a < b) (localMaxima x) :=
  lmLoop_pairwise x (x.length - 1) x.length 1

end FindPeaks

namespace FindPeaks

/-- One step of scipy's `_select_by_peak_distance`: if peak slot `j` is still
kept, clear every other slot whose peak position is closer than `distance`
(for the ascending peak arrays produced by `_local_maxima_1d` the two
contiguous while-scans of the scipy source clear exactly these slots). -/
noncomputable def sepStep (peaks : List ℕ) (distance : ℕ) (keep : List Bool)
    (j : ℕ) : List Bool :=
  if keep.getD j false = true then
    (List.range keep.length).map (fun k =>
      if k = j then keep.getD k false
      else if ((peaks.getD k 0 : ℤ) - (peaks.getD j 0 : ℤ)).natAbs < distance then false
      else keep.getD k false)
  else keep

/-- Insertion into a list of slot indices ordered by descending priority;
together with `sortIdxDesc` this models scipy's iteration of
`_select_by_peak_distance` over `np.argsort(priority)` from the highest
priority down (the claim-level properties hold for any processing order, so
the tie order of the unstable numpy argsort is immaterial). -/
noncomputable def sortIdxInsert (priority : List ℝ) (j : ℕ) : List ℕ → List ℕ
  | [] => [j]
  | k :: ks =>
    if priority.getD k 0 ≤ priority.getD j 0 then j :: k :: ks
    else k :: sortIdxInsert priority j ks

/-- Slot indices `0..n-1` sorted by descending priority. -/
noncomputable def sortIdxDesc (priority : List ℝ) : List ℕ :=
  (List.range priority.length).foldr (fun j acc => sortIdxInsert priority j acc) []

/-- scipy's `_select_by_peak_distance`: the boolean keep mask after
processing every slot in descending priority order. -/
noncomputable def selectByPeakDistance (peaks : List ℕ) (priority : List ℝ)
    (distance : ℕ) : List Bool :=
  (sortIdxDesc priority).foldl (sepStep peaks distance)
    (List.replicate peaks.length true)

/-- `peaks[keep]` after the distance selection in scipy's find_peaks. -/
noncomputable def applyDistanceFilter (peaks : List ℕ) (priority : List ℝ)
    (distance : ℕ) : List ℕ :=
  let keep := selectByPeakDistance peaks priority distance
  ((List.range peaks.length).filter (fun k => keep.getD k false = true)).map
    (fun k => peaks.getD k 0)

lemma getD_map_range {α : Type} (n k : ℕ) (f : ℕ → α) (d : α) :
    ((List.range n).map f).getD k d = if k < n then f k else d := by
  by_cases h : k < n
  · rw [if_pos h]
    rw [List.getD_eq_getElem _ d (by simpa using h)]
    rw [List.getElem_map, List.getElem_range]
  · rw [if_neg h]
    rw [List.getD_eq_default _ d (by simpa using h)]

lemma sepStep_length (peaks : List ℕ) (distance : ℕ) (keep : List Bool) (j : ℕ) :
    (sepStep peaks distance keep j).length = keep.length := by
  unfold sepStep
  split
  · rw [List.length_map, List.length_range]
  · rfl

lemma sepStep_mono (peaks : List ℕ) (distance : ℕ) (keep : List Bool) (j k : ℕ)
    (h : (sepStep peaks distance keep j).getD k false = true) :
    keep.getD k false = true := by
  unfold sepStep at h
  by_cases hj : keep.getD j false = true
  · rw [if_pos hj, getD_map_range] at h
    by_cases hk : k < keep.length
    · rw [if_pos hk] at h
      by_cases hkj : k = j
      · rw [if_pos hkj] at h
        exact h
      · rw [if_neg hkj] at h
        by_cases hd : ((peaks.getD k 0 : ℤ) - (peaks.getD j 0 : ℤ)).natAbs < distance
        · rw [if_pos hd] at h
          exact absurd h (by simp)
        · rw [if_neg hd] at h
          exact h
    · rw [if_neg hk] at h
      exact absurd h (by simp)
  · rw [if_neg hj] at h
    exact h

lemma foldl_sep_length (peaks : List ℕ) (distance : ℕ) :
    ∀ (order : List ℕ) (keep : List Bool),
      (order.foldl (sepStep peaks distance) keep).length = keep.length := by
  intro order
  induction order with
  | nil => intro keep; rfl
  | cons j rest ih =>
    intro keep
    rw [List.foldl_cons, ih, sepStep_length]

lemma foldl_sep_mono (peaks : List ℕ) (distance : ℕ) :
    ∀ (order : List ℕ) (keep : List Bool) (k : ℕ),
      (order.foldl (sepStep peaks distance) keep).getD k false = true →
      keep.getD k false = true := by
  intro order
  induction order with
  | nil => intro keep k h; exact h
  | cons j rest ih =>
    intro keep k h
    rw [List.foldl_cons] at h
    exact sepStep_mono peaks distance keep j k (ih _ k h)

lemma foldl_sep_clears (peaks : List ℕ) (distance : ℕ) :
    ∀ (order : List ℕ) (keep : List Bool) (j k : ℕ), j ∈ order → k ≠ j →
      k < keep.length →
      ((peaks.getD k 0 : ℤ) - (peaks.getD j 0 : ℤ)).natAbs < distance →
      (order.foldl (sepStep peaks distance) keep).getD j false = true →
      (order.foldl (sepStep peaks distance) keep).getD k false = false := by
  intro order
  induction order with
  | nil =>
    intro keep j k hj
    exact absurd hj (List.not_mem_nil j)
  | cons j0 rest ih =>
    intro keep j k hj hkj hk hd hkept
    rw [List.foldl_cons] at hkept ⊢
    by_cases hjj : j0 = j
    · subst hjj
      have h1 : (sepStep peaks distance keep j0).getD j0 false = true :=
        foldl_sep_mono peaks distance rest _ j0 hkept
      have h2 : keep.getD j0 false = true := sepStep_mono peaks distance keep j0 j0 h1
      have h3 : (sepStep peaks distance keep j0).getD k false = false := by
        unfold sepStep
        rw [if_pos h2, getD_map_range, if_pos hk, if_neg hkj, if_pos hd]
      cases hfinal : (rest.foldl (sepStep peaks distance) (sepStep peaks distance keep j0)).getD k false with
      | false => rfl
      | true =>
        have := foldl_sep_mono peaks distance rest _ k hfinal
        rw [h3] at this
        exact absurd this (by simp)
    · have hjrest : j ∈ rest := by
        rcases List.mem_cons.mp hj with he | ht
        · exact absurd he.symm hjj
        · exact ht
      exact ih (sepStep peaks distance keep j0) j k hjrest hkj
        (by rw [sepStep_length]; exact hk) hd hkept

lemma mem_sortIdxInsert (priority : List ℝ) (j : ℕ) :
    ∀ (l : List ℕ) (m : ℕ), m = j ∨ m ∈ l → m ∈ sortIdxInsert priority j l := by
  intro l
  induction l with
  | nil =>
    intro m hm
    rw [sortIdxInsert]
    rcases hm with he | habs
    · simp [he]
    · exact absurd habs (List.not_mem_nil m)
  | cons k ks ih =>
    intro m hm
    rw [sortIdxInsert]
    split
    · rcases hm with he | ht
      · simp [he]
      · simp [List.mem_cons.mp ht]
    · rcases hm with he | ht
      · exact List.mem_cons.mpr (Or.inr (ih m (Or.inl he)))
      · rcases List.mem_cons.mp ht with he2 | ht2
        · simp [he2]
        · exact List.mem_cons.mpr (Or.inr (ih m (Or.inr ht2)))

lemma mem_sortIdxDesc (priority : List ℝ) (j : ℕ) (hj : j < priority.length) :
    j ∈ sortIdxDesc priority := by
  unfold sortIdxDesc
  have key : ∀ (l : List ℕ) (acc : List ℕ), j ∈ l ∨ j ∈ acc →
      j ∈ l.foldr (fun m acc2 => sortIdxInsert priority m acc2) acc := by
    intro l
    induction l with
    | nil =>
      intro acc h
      rcases h with habs | h2
      · exact absurd habs (List.not_mem_nil j)
      · exact h2
    | cons m ms ih =>
      intro acc h
      rw [List.foldr_cons]
      apply mem_sortIdxInsert
      rcases h with h1 | h2
      · rcases List.mem_cons.mp h1 with he | ht
        · exact Or.inl he
        · exact Or.inr (ih acc (Or.inl ht))
      · exact Or.inr (ih acc (Or.inr h2))
  exact key (List.range priority.length) [] (Or.inl (List.mem_range.mpr hj))

end FindPeaks

namespace FindPeaks

lemma mem_applyDistanceFilter (peaks : List ℕ) (priority : List ℝ)
    (distance : ℕ) (q : ℕ) (hq : q ∈ applyDistanceFilter peaks priority distance) :
    q ∈ peaks := by
  unfold applyDistanceFilter at hq
  simp only [List.mem_map] at hq
  obtain ⟨k, hkf, rfl⟩ := hq
  have hk := (List.mem_filter.mp hkf).1
  have hklt : k < peaks.length := List.mem_range.mp hk
  rw [List.getD_eq_getElem _ 0 hklt]
  exact List.getElem_mem hklt

lemma applyDistanceFilter_pairwise (peaks : List ℕ) (priority : List ℝ)
    (distance : ℕ) (hlen : peaks.length ≤ priority.length)
    (hpw : List.Pairwise (fun a b => a < b) peaks) :
    List.Pairwise (fun a b => a < b ∧ a + distance ≤ b)
      (applyDistanceFilter peaks priority distance) := by
  unfold applyDistanceFilter
  rw [List.pairwise_map]
  have hsub : List.Pairwise (fun a b => a < b)
      ((List.range peaks.length).filter (fun k =>
        (selectByPeakDistance peaks priority distance).getD k false = true)) :=
    List.Pairwise.sublist (List.filter_sublist _) (List.pairwise_lt_range _)
  apply List.Pairwise.imp_of_mem ?_ hsub
  intro k1 k2 hk1 hk2 hlt
  have hm1 := List.mem_filter.mp hk1
  have hm2 := List.mem_filter.mp hk2
  have hk1n : k1 < peaks.length := List.mem_range.mp hm1.1
  have hk2n : k2 < peaks.length := List.mem_range.mp hm2.1
  have hkept1 : (selectByPeakDistance peaks priority distance).getD k1 false = true :=
    of_decide_eq_true hm1.2
  have hkept2 : (selectByPeakDistance peaks priority distance).getD k2 false = true :=
    of_decide_eq_true hm2.2
  have hvlt : peaks.getD k1 0 < peaks.getD k2 0 := by
    rw [List.getD_eq_getElem _ 0 hk1n, List.getD_eq_getElem _ 0 hk2n]
    exact List.pairwise_iff_getElem.mp hpw k1 k2 hk1n hk2n hlt
  refine ⟨hvlt, ?_⟩
  by_contra hsepn
  have hd : ((peaks.getD k2 0 : ℤ) - (peaks.getD k1 0 : ℤ)).natAbs < distance := by
    omega
  unfold selectByPeakDistance at hkept1 hkept2
  have := foldl_sep_clears peaks distance (sortIdxDesc priority)
    (List.replicate peaks.length true) k1 k2
    (mem_sortIdxDesc priority k1 (by omega)) (by omega)
    (by rw [List.length_replicate]; exact hk2n) hd hkept1
  rw [this] at hkept2
  exact absurd hkept2 (by simp)

/-- Left scan of scipy's `_peak_prominences`: walk left from the peak while
`x[i] <= x[peak]`, tracking the running minimum and its index (the left
base).  Structural recursion on the index; the scan stops at index 0. -/
noncomputable def promLeft (x : List ℝ) (xpeak : ℝ) : ℕ → ℝ → ℕ → ℝ × ℕ
  | 0, curMin, curBase =>
    if x.getD 0 0 ≤ xpeak then
      if x.getD 0 0 < curMin then (x.getD 0 0, 0) else (curMin, curBase)
    else (curMin, curBase)
  | i + 1, curMin, curBase =>
    if x.getD (i + 1) 0 ≤ xpeak then
      if x.getD (i + 1) 0 < curMin then promLeft x xpeak i (x.getD (i + 1) 0) (i + 1)
      else promLeft x xpeak i curMin curBase
    else (curMin, curBase)

/-- Right scan of scipy's `_peak_prominences`: walk right while
`i <= i_max and x[i] <= x[peak]`, tracking the running minimum and its
index (the right base).  Fuel-driven. -/
noncomputable def promRight (x : List ℝ) (xpeak : ℝ) (imax : ℕ) :
    ℕ → ℝ → ℕ → ℕ → ℝ × ℕ
  | _, curMin, curBase, 0 => (curMin, curBase)
  | i, curMin, curBase, fuel + 1 =>
    if i ≤ imax ∧ x.getD i 0 ≤ xpeak then
      if x.getD i 0 < curMin then promRight x xpeak imax (i + 1) (x.getD i 0) i fuel
      else promRight x xpeak imax (i + 1) curMin curBase fuel
    else (curMin, curBase)

/-- Prominence, left base and right base of one peak per scipy's
`_peak_prominences` with the default full window:
`prominence = x[peak] - max(left_min, right_min)`. -/
noncomputable def peakProminenceData (x : List ℝ) (p : ℕ) : ℝ × ℕ × ℕ :=
  let xpeak := x.getD p 0
  let lres := promLeft x xpeak p xpeak p
  let rres := promRight x xpeak (x.length - 1) p xpeak p (x.length + 1)
  (xpeak - max lres.1 rres.1, lres.2, rres.2)

/-- Left scan of scipy's `_peak_widths`: walk left from the peak while
`i_min < i and height < x[i]`. -/
noncomputable def widthLeftIdx (x : List ℝ) (height : ℝ) (imin : ℕ) : ℕ → ℕ
  | 0 => 0
  | i + 1 =>
    if imin < i + 1 ∧ height < x.getD (i + 1) 0 then widthLeftIdx x height imin i
    else i + 1

/-- Right scan of scipy's `_peak_widths`: walk right while
`i < i_max and height < x[i]`.  Fuel-driven. -/
noncomputable def widthRightIdx (x : List ℝ) (height : ℝ) (imax : ℕ) : ℕ → ℕ → ℕ
  | i, 0 => i
  | i, fuel + 1 =>
    if i < imax ∧ height < x.getD i 0 then widthRightIdx x height imax (i + 1) fuel
    else i

/-- Width of one peak per scipy's `_peak_widths` at the default
`rel_height = 0.5`, with linear interpolation of both intersection points. -/
noncomputable def peakWidth (x : List ℝ) (p : ℕ) : ℝ :=
  let pdata := peakProminenceData x p
  let height := x.getD p 0 - pdata.1 * (1 / 2)
  let li := widthLeftIdx x height pdata.2.1 p
  let left_ip : ℝ :=
    if x.getD li 0 < height then
      (li : ℝ) + (height - x.getD li 0) / (x.getD (li + 1) 0 - x.getD li 0)
    else (li : ℝ)
  let ri := widthRightIdx x height pdata.2.2 p (x.length + 1)
  let right_ip : ℝ :=
    if x.getD ri 0 < height then
      (ri : ℝ) - (height - x.getD ri 0) / (x.getD (ri - 1) 0 - x.getD ri 0)
    else (ri : ℝ)
  right_ip - left_ip

/-- scipy.signal.find_peaks as called by detect_peaks in
src/peak_analysis.py (arguments height, distance, prominence, width): local
maxima, then the height filter, the distance selection (priorities are the
peak heights), the prominence filter, and the width filter, in scipy's
order. -/
noncomputable def findPeaksModel (x : List ℝ) (height : ℝ) (distance : ℕ)
    (prominence : ℝ) (width : ℝ) : List ℕ :=
  let peaks0 := localMaxima x
  let peaks1 := peaks0.filter (fun p => height ≤ x.getD p 0)
  let peaks2 := applyDistanceFilter peaks1 (peaks1.map (fun p => x.getD p 0)) distance
  let peaks3 := peaks2.filter (fun p => prominence ≤ (peakProminenceData x p).1)
  peaks3.filter (fun p => width ≤ peakWidth x p)

end FindPeaks

/-- detect_peaks from src/peak_analysis.py: empty data or flat data (range
0) give an empty result; otherwise scipy find_peaks runs with the absolute
height `height_threshold * range + min`, the given minimal distance, the
adaptive prominence `prominence * range / 100`, and the width. -/
noncomputable def detect_peaks (data : List ℝ) (height_threshold : ℝ)
    (distance : ℕ) (prominence : ℝ) (width : ℝ) : List ℕ :=
  if data.length = 0 then []
  else
    if npMax data - npMin data = 0 then []
    else
      FindPeaks.findPeaksModel data
        (height_threshold * (npMax data - npMin data) + npMin data) distance
        (if npMax data - npMin data > 0 then
            prominence * ((npMax data - npMin data) / 100)
          else prominence)
        width

/-- C5: detect_peaks returns empty on empty or flat (max = min) input;
otherwise every returned index list is strictly ascending, any two returned
indices are at least min_distance apart, and every returned peak value is
at least `abs_height = height_threshold * (max - min) + min`.  The
hypothesis `1 <= distance` mirrors scipy's precondition (`find_peaks`
raises on `distance < 1`); the properties are proved for every behaviour of
the prominence and width stages, which only remove candidates. -/
theorem c5_detect_peaks_invariants (data : List ℝ) (height_threshold : ℝ)
    (distance : ℕ) (prominence width : ℝ) (hdist : 1 ≤ distance) :
    (data = [] → detect_peaks data height_threshold distance prominence width = []) ∧
    (npMax data - npMin data = 0 →
      detect_peaks data height_threshold distance prominence width = []) ∧
    List.Pairwise (fun a b => a < b ∧ a + distance ≤ b)
      (detect_peaks data height_threshold distance prominence width) ∧
    (∀ p ∈ detect_peaks data height_threshold distance prominence width,
      height_threshold * (npMax data - npMin data) + npMin data ≤ data.getD p 0) := by
  unfold detect_peaks
  by_cases h0 : data.length = 0
  · rw [if_pos h0]
    exact ⟨fun _ => rfl, fun _ => rfl, List.Pairwise.nil, by simp⟩
  · rw [if_neg h0]
    by_cases hr : npMax data - npMin data = 0
    · rw [if_pos hr]
      exact ⟨fun _ => rfl, fun _ => rfl, List.Pairwise.nil, by simp⟩
    · rw [if_neg hr]
      have habs : ∀ p ∈ FindPeaks.findPeaksModel data
          (height_threshold * (npMax data - npMin data) + npMin data) distance
          (if npMax data - npMin data > 0 then
              prominence * ((npMax data - npMin data) / 100)
            else prominence) width,
          height_threshold * (npMax data - npMin data) + npMin data ≤ data.getD p 0 := by
        intro p hp
        unfold FindPeaks.findPeaksModel at hp
        have hp3 := (List.mem_filter.mp hp).1
        have hp2 := (List.mem_filter.mp hp3).1
        have hp1 := FindPeaks.mem_applyDistanceFilter _ _ _ _ hp2
        exact of_decide_eq_true (List.mem_filter.mp hp1).2
      have hpw : List.Pairwise (fun a b => a < b ∧ a + distance ≤ b)
          (FindPeaks.findPeaksModel data
            (height_threshold * (npMax data - npMin data) + npMin data) distance
            (if npMax data - npMin data > 0 then
                prominence * ((npMax data - npMin data) / 100)
              else prominence) width) := by
        unfold FindPeaks.findPeaksModel
        apply List.Pairwise.sublist
          (List.Sublist.trans (List.filter_sublist _) (List.filter_sublist _))
        apply FindPeaks.applyDistanceFilter_pairwise
        · rw [List.length_map]
        · exact List.Pairwise.sublist (List.filter_sublist _)
            (FindPeaks.localMaxima_pairwise data)
      exact ⟨fun hd => absurd (by simp [hd]) h0, fun h => absurd h hr, hpw, habs⟩

/-- Witness for C5 on the profile [0, 5, 0] with threshold 1/2, minimal
distance 2, prominence 10 and width 3. -/
theorem c5_detect_peaks_invariants_witness :
    (1 ≤ 2) ∧
    (([(0 : ℝ), 5, 0] = ([] : List ℝ)) → detect_peaks [(0 : ℝ), 5, 0] (1 / 2) 2 10 3 = []) ∧
    ((npMax [(0 : ℝ), 5, 0] - npMin [(0 : ℝ), 5, 0] = 0) →
      detect_peaks [(0 : ℝ), 5, 0] (1 / 2) 2 10 3 = []) ∧
    List.Pairwise (fun a b => a < b ∧ a + 2 ≤ b)
      (detect_peaks [(0 : ℝ), 5, 0] (1 / 2) 2 10 3) ∧
    (∀ p ∈ detect_peaks [(0 : ℝ), 5, 0] (1 / 2) 2 10 3,
      1 / 2 * (npMax [(0 : ℝ), 5, 0] - npMin [(0 : ℝ), 5, 0]) + npMin [(0 : ℝ), 5, 0] ≤
        List.getD [(0 : ℝ), 5, 0] p 0) :=
  ⟨by norm_num,
   c5_detect_peaks_invariants [(0 : ℝ), 5, 0] (1 / 2) 2 10 3 (by norm_num)⟩
